import Mathlib

/-!
# template-c-program: a shallow embedding of `src/fsm.c` and `src/main.c`

The program parses `-h`, `-v`, `-V` and `-d <delay>` with `getopt`, checks and
converts the delay, and drives a three-state chain (A, B, C) through the
`p101_fsm` table interpreter.

Conventions of the embedding

* C strings are `String`; a `NULL` pointer is `none`.
* The error object `struct p101_error` is `Option p101_error`: `none` is
  "no error recorded".
* Output is a list of events (`io_event`); `sleep` is an event, not real time.
* Library code that is not part of the program text (`getopt`, the `p101_*`
  libraries, `errors.h`) is either a parameter (`p101_fsm_lib`) or a
  definition whose comment says what it is modelled on.
* `-v` only switches on the `P101_TRACE` diagnostics, which are not modelled.
-/

namespace TemplateC

/-! ## The error object (`p101_error`) -/

/-- Modelled from the spec: the error classes of the `p101_error` library, whose
header is not among the sources. `main` only tests for `P101_ERROR_USER`. -/
inductive p101_error_type where
  | P101_ERROR_SYSTEM
  | P101_ERROR_USER
deriving DecidableEq, Repr

/-- Modelled from the spec: the error codes of `errors.h`, which is not among the
sources. A usage error makes `main` print the usage text and an FSM error does
not, so the two codes are distinct; their numeric values play no role. -/
inductive error_code where
  | ERR_USAGE
  | ERR_FSM
  | ERR_OTHER (n : Int)
deriving DecidableEq, Repr

/-- A recorded error: its class, its code and its message (`NULL` is `none`). -/
structure p101_error where
  type : p101_error_type
  code : error_code
  message : Option String
deriving DecidableEq, Repr

/-- `p101_error_has_error(err)`. -/
def p101_error_has_error (err : Option p101_error) : Bool := err.isSome

/-- `p101_error_has_no_error(err)`. -/
def p101_error_has_no_error (err : Option p101_error) : Bool := err.isNone

/-- `p101_error_is_error(err, type, code)`. -/
def p101_error_is_error (err : Option p101_error) (t : p101_error_type) (c : error_code) : Bool :=
  match err with
  | none => false
  | some e => decide (e.type = t) && decide (e.code = c)

/-- `p101_error_get_message(err)`. -/
def p101_error_get_message (err : Option p101_error) : Option String :=
  match err with
  | none => none
  | some e => e.message

/-- Modelled from the spec: the macro `P101_ERROR_RAISE_USER(err, msg, code)` of the
`p101_error` library records a user error in `err`; a later raise replaces an
earlier one (`convert_arguments` relies on this to turn the parser's error
into a usage error). -/
def P101_ERROR_RAISE_USER (_err : Option p101_error) (msg : Option String) (code : error_code) :
    Option p101_error :=
  some { type := p101_error_type.P101_ERROR_USER, code := code, message := msg }

/-! ## Output events -/

/-- What the program does to the outside world, in order. -/
inductive io_event where
  | stdout (s : String)
  | stderr (s : String)
  | sleep (seconds : Nat)
deriving DecidableEq, Repr

/-! ## `fsm.c` -/

/-- The type `p101_fsm_state_t` is an `int`. -/
abbrev p101_fsm_state_t := Int

/-- Modelled from the spec: `P101_FSM_INIT`, a reserved sentinel below the user range
(the header `p101_fsm/fsm.h` is not among the sources). -/
def P101_FSM_INIT : p101_fsm_state_t := 0

/-- Modelled from the spec: `P101_FSM_EXIT`, the other reserved sentinel below the user
range. -/
def P101_FSM_EXIT : p101_fsm_state_t := 1

/-- `P101_FSM_USER_START`; `fsm.c` line 17 records its value as 2. -/
def P101_FSM_USER_START : p101_fsm_state_t := 2

/-- `enum states { A = P101_FSM_USER_START, B, C }`. -/
def A : p101_fsm_state_t := P101_FSM_USER_START

/-- `B` follows `A` in the enumeration. -/
def B : p101_fsm_state_t := A + 1

/-- `C` follows `B` in the enumeration. -/
def C : p101_fsm_state_t := B + 1

/-- What a state handler gives back: the state it returns, the value it leaves
in `*arg`, and the output it produced. -/
structure handler_result where
  next : p101_fsm_state_t
  arg : Nat
  events : List io_event
deriving DecidableEq, Repr

/-- `p101_fsm_state_func`: a handler reads the shared `unsigned int` behind `arg`. -/
abbrev p101_fsm_state_func := Nat → handler_result

/-- `struct p101_fsm_transition`: `{from_id, to_id, perform}`; a `NULL` handler is
`none`. -/
structure p101_fsm_transition where
  from_id : p101_fsm_state_t
  to_id : p101_fsm_state_t
  perform : Option p101_fsm_state_func

/-- Handler `a` (`fsm.c` 73-83): print, sleep `*delay`, return `B`. -/
def a : p101_fsm_state_func := fun delay =>
  { next := B, arg := delay, events := [io_event.stdout "a called\n", io_event.sleep delay] }

/-- Handler `b` (`fsm.c` 88-98): print, sleep `*delay`, return `C`. -/
def b : p101_fsm_state_func := fun delay =>
  { next := C, arg := delay, events := [io_event.stdout "b called\n", io_event.sleep delay] }

/-- Handler `c` (`fsm.c` 105-115): print, sleep `*delay`, return `P101_FSM_EXIT`. -/
def c : p101_fsm_state_func := fun delay =>
  { next := P101_FSM_EXIT, arg := delay,
    events := [io_event.stdout "c called\n", io_event.sleep delay] }

/-- The static table `transitions` of `run_fsm` (`fsm.c` 29-34). -/
def transitions : List p101_fsm_transition :=
  [ { from_id := P101_FSM_INIT, to_id := A, perform := some a },
    { from_id := A, to_id := B, perform := some b },
    { from_id := B, to_id := C, perform := some c },
    { from_id := C, to_id := P101_FSM_EXIT, perform := none } ]

/-- The `"%d"` conversion of `printf`. -/
def fmt_d (n : Int) : String := toString n

/-- Modelled from the spec: `p101_fsm_info_get_name` returns the name given to
`p101_fsm_info_create`, which `run_fsm` passes as `"fsm"`. -/
def fsm_name : String := "fsm"

/-- `will_change_state_notifier_func` (`fsm.c` 119-123). -/
def will_change_state_notifier_func (from_state_id to_state_id : p101_fsm_state_t) :
    List io_event :=
  [io_event.stdout (fsm_name ++ " will change from " ++ fmt_d from_state_id ++ " to "
    ++ fmt_d to_state_id ++ "\n")]

/-- `did_change_state_notifier_func` (`fsm.c` 125-129); `next_state_id` is unused. -/
def did_change_state_notifier_func (from_state_id to_state_id _next_state_id : p101_fsm_state_t) :
    List io_event :=
  [io_event.stdout (fsm_name ++ " did change from " ++ fmt_d from_state_id ++ " to "
    ++ fmt_d to_state_id ++ "\n")]

/-- `bad_change_state_notifier_func` (`fsm.c` 131-137): print and return
`to_state_id`. -/
def bad_change_state_notifier_func (from_state_id to_state_id : p101_fsm_state_t) :
    p101_fsm_state_t × List io_event :=
  (to_state_id, [io_event.stdout (fsm_name ++ " can't change from " ++ fmt_d from_state_id
    ++ " to " ++ fmt_d to_state_id ++ "\n")])

/-- The three callbacks of `struct p101_fsm_info` that `run_fsm` may register. -/
structure p101_fsm_info where
  bad_change_state_handler :
    Option (p101_fsm_state_t → p101_fsm_state_t → p101_fsm_state_t × List io_event)
  will_change_state_notifier : Option (p101_fsm_state_t → p101_fsm_state_t → List io_event)
  did_change_state_notifier :
    Option (p101_fsm_state_t → p101_fsm_state_t → p101_fsm_state_t → List io_event)

/-- What a call of `p101_fsm_run` leaves behind: the two out-parameters, the
shared value, the state of `fsm_err`, the output, and (as instrumentation)
the states the interpreter was at, in order. -/
structure fsm_result where
  from_state : p101_fsm_state_t
  to_state : p101_fsm_state_t
  arg : Nat
  fsm_err : Option p101_error
  events : List io_event
  visited : List p101_fsm_state_t
deriving DecidableEq, Repr

/-- The part of the `p101_fsm` library that `run_fsm` calls and that is not
program text: the error `p101_fsm_info_create` may leave in `err`, and the
interpreter `p101_fsm_run` (`none` when it does not return). -/
structure p101_fsm_lib where
  info_create_error : Option p101_error
  fsm_run : p101_fsm_info → Nat → List p101_fsm_transition → Option fsm_result

/-- `struct arguments` (`arguments.h`). -/
structure arguments where
  delay_str : Option String
  delay : Nat
  verbose : Bool
  fsm_verbose : Bool
deriving DecidableEq, Repr

/-- The callbacks `run_fsm` registers: all three when `args->fsm_verbose` is set
(`fsm.c` 47-52), none otherwise. -/
def registered_info (fsm_verbose : Bool) : p101_fsm_info :=
  if fsm_verbose then
    { bad_change_state_handler := some bad_change_state_notifier_func,
      will_change_state_notifier := some will_change_state_notifier_func,
      did_change_state_notifier := some did_change_state_notifier_func }
  else
    { bad_change_state_handler := none,
      will_change_state_notifier := none,
      did_change_state_notifier := none }

/-- The constant `EXIT_SUCCESS`. -/
def EXIT_SUCCESS : Int := 0

/-- The constant `EXIT_FAILURE`. -/
def EXIT_FAILURE : Int := 1

/-- What `run_fsm` hands back to `main`: its return value, the state of `err`,
the output, and what the interpreter left (when it was called). -/
structure run_fsm_result where
  ret : Int
  err : Option p101_error
  events : List io_event
  fsm : Option fsm_result
deriving DecidableEq, Repr

/-- `run_fsm` (`fsm.c` 22-68). `none` only when the interpreter does not return. -/
def run_fsm (lib : p101_fsm_lib) (err : Option p101_error) (args : arguments) :
    Option run_fsm_result :=
  -- fsm = p101_fsm_info_create(env, err, "fsm", fsm_env, fsm_err, NULL);
  let err1 := match lib.info_create_error with
    | some e => some e
    | none => err
  if p101_error_has_error err1 then
    -- goto done; fsm_err holds no error
    some { ret := EXIT_SUCCESS, err := err1, events := [], fsm := none }
  else
    let info := registered_info args.fsm_verbose
    let delay := args.delay
    match lib.fsm_run info delay transitions with
    | none => none
    | some r =>
      let err2 :=
        if p101_error_has_error r.fsm_err then
          P101_ERROR_RAISE_USER err1 (p101_error_get_message r.fsm_err) error_code.ERR_FSM
        else err1
      some { ret := EXIT_SUCCESS, err := err2, events := r.events, fsm := some r }

/-! ## The table interpreter -/

/-- Modelled from the spec: the table lookup of the interpreter (library code, not
among the sources): the handler of the first row with the given from-state and
to-state. -/
def fsm_transition (from_id to_id : p101_fsm_state_t) (table : List p101_fsm_transition) :
    Option p101_fsm_state_func :=
  match table.find? (fun t => decide (t.from_id = from_id) && decide (t.to_id = to_id)) with
  | none => none
  | some t => t.perform

/-- Modelled from the spec: the interpreter calls a notifier only when one is
registered; these are the events of the before-transition notifier. -/
def notify (n : Option (p101_fsm_state_t → p101_fsm_state_t → List io_event))
    (from_id to_id : p101_fsm_state_t) : List io_event :=
  match n with
  | none => []
  | some f => f from_id to_id

/-- Modelled from the spec: the events of the after-transition notifier, when one
is registered. -/
def notify_did (n : Option (p101_fsm_state_t → p101_fsm_state_t → p101_fsm_state_t → List io_event))
    (from_id to_id next_id : p101_fsm_state_t) : List io_event :=
  match n with
  | none => []
  | some f => f from_id to_id next_id

/-- Modelled from the spec: the loop of the interpreter `p101_fsm_run` (see there),
with `fuel` bounding the number of iterations. The interpreter is at `from_id`
and is about to enter `to_id`; `vis` lists the states it has left. -/
def fsm_loop (info : p101_fsm_info) (table : List p101_fsm_transition) :
    Nat → p101_fsm_state_t → p101_fsm_state_t → Nat → List io_event → List p101_fsm_state_t →
    Option fsm_result
  | 0, _, _, _, _, _ => none
  | fuel + 1, from_id, to_id, arg, ev, vis =>
    if to_id = P101_FSM_EXIT then
      some { from_state := from_id, to_state := to_id, arg := arg, fsm_err := none,
             events := ev, visited := vis ++ [from_id, to_id] }
    else
      match fsm_transition from_id to_id table with
      | none =>
        match info.bad_change_state_handler with
        | none =>
          some { from_state := from_id, to_state := to_id, arg := arg,
                 fsm_err := some { type := p101_error_type.P101_ERROR_USER,
                                   code := error_code.ERR_OTHER 1,
                                   message := some ("Unknown state transition: "
                                     ++ fmt_d from_id ++ " -> " ++ fmt_d to_id) },
                 events := ev, visited := vis ++ [from_id] }
        | some bad =>
          let r := bad from_id to_id
          fsm_loop info table fuel from_id r.1 arg (ev ++ r.2) vis
      | some perform =>
        let ev1 := ev ++ notify info.will_change_state_notifier from_id to_id
        let h := perform arg
        let ev2 := ev1 ++ h.events ++ notify_did info.did_change_state_notifier from_id to_id h.next
        fsm_loop info table fuel to_id h.next h.arg ev2 (vis ++ [from_id])

/-- Modelled from the spec: the interpreter `p101_fsm_run` of the `p101_fsm` library,
which is not among the sources (spec 4.1, read with spec 3 and the glossary).
It starts at INIT and takes the transition out of INIT as its first step. At
each step it looks up the row for the state it is at and the state it is
about to enter; that row carries the handler of the state entered (INIT and
EXIT have none). With a row: before-notifier `(from, to)`, handler with the
shared value, after-notifier `(from, to, next)`, then it is at `to` and about
to enter `next`. Without a row: the invalid-transition callback supplies the
corrected state when registered, otherwise the run ends with an error in
`fsm_err`. It stops when the state to enter is EXIT, for which no handler is
called and no row is looked up. A table without a transition out of INIT is
reported before any handler runs. -/
def p101_fsm_run (fuel : Nat) (info : p101_fsm_info) (arg : Nat)
    (table : List p101_fsm_transition) : Option fsm_result :=
  match table.find? (fun t => decide (t.from_id = P101_FSM_INIT)) with
  | none =>
    some { from_state := P101_FSM_INIT, to_state := P101_FSM_INIT, arg := arg,
           fsm_err := some { type := p101_error_type.P101_ERROR_USER,
                             code := error_code.ERR_OTHER 1,
                             message := some "No transition from the initial state" },
           events := [], visited := [] }
  | some t => fsm_loop info table fuel P101_FSM_INIT t.to_id arg [] []

/-- Modelled from the spec: the `p101_fsm` library as the spec describes it:
`p101_fsm_info_create` succeeds and the interpreter is `p101_fsm_run` with the
given iteration bound. -/
def spec_lib (fuel : Nat) : p101_fsm_lib :=
  { info_create_error := none, fsm_run := p101_fsm_run fuel }

/-! ## `getopt` -/

/-- Modelled from the spec: the state `getopt` keeps between calls (see `getopt`):
`optind`, the option characters of the element being scanned that are still
unread, `optarg` and `optopt`. -/
structure getopt_state where
  optind : Nat
  nextchar : List Char
  optarg : Option String
  optopt : Char
deriving DecidableEq, Repr

/-- Modelled from the spec: the state of `getopt` before the first call; `optind`
is 1. -/
def getopt_init : getopt_state :=
  { optind := 1, nextchar := [], optarg := none, optopt := '?' }

/-- Modelled from the spec: how an option string declares a character for
`getopt`: `none` when it is not an option character, `some true` when it takes
an argument (a colon follows it). -/
def optstring_lookup : List Char → Char → Option Bool
  | [], _ => none
  | x :: rest, ch =>
    if x = ch ∧ ch ≠ ':' then some (decide (rest.head? = some ':'))
    else optstring_lookup rest ch

/-- Modelled from the spec: what `getopt` does with one option character `ch` of
the element at `optind`, with `cs` the characters after it in that element. -/
def getopt_char (argv : List String) (optstring : List Char) (st : getopt_state)
    (ch : Char) (cs : List Char) : Option Char × getopt_state :=
  match optstring_lookup optstring ch with
  | none =>
    (some '?', { optind := if cs.isEmpty then st.optind + 1 else st.optind,
                 nextchar := cs, optarg := none, optopt := ch })
  | some false =>
    (some ch, { optind := if cs.isEmpty then st.optind + 1 else st.optind,
                nextchar := cs, optarg := none, optopt := st.optopt })
  | some true =>
    if cs.isEmpty then
      match argv[st.optind + 1]? with
      | some v =>
        (some ch, { optind := st.optind + 2, nextchar := [], optarg := some v,
                    optopt := st.optopt })
      | none =>
        (some (if optstring.head? = some ':' then ':' else '?'),
         { optind := st.optind + 1, nextchar := [], optarg := none, optopt := ch })
    else
      (some ch, { optind := st.optind + 1, nextchar := [], optarg := some (String.mk cs),
                  optopt := st.optopt })

/-- Modelled from the spec: the option syntax of spec 6 as `getopt` of POSIX parses it
(`p101_getopt` wraps it; neither is among the sources). The result `none`
stands for -1. Scanning stops, without moving `optind`, at the first element
that is not an option (it does not start with `-`, or is `-` alone); `--`
ends the options and is skipped. Option characters may be clustered in one
element; an option that takes an argument takes the rest of its element or,
when that is empty, the next element; when there is none the result is `:`
(the option string starts with a colon) and `optopt` is the option. A
character that is not in the option string gives `?` with `optopt` set.
Elements are never reordered. -/
def getopt (argv : List String) (optstring : List Char) (st : getopt_state) :
    Option Char × getopt_state :=
  match st.nextchar with
  | ch :: cs => getopt_char argv optstring st ch cs
  | [] =>
    match argv[st.optind]? with
    | none => (none, { st with optarg := none })
    | some arg =>
      match arg.data with
      | c0 :: ch :: cs =>
        if c0 = '-' then
          if ch = '-' ∧ cs = [] then (none, { st with optind := st.optind + 1, optarg := none })
          else getopt_char argv optstring st ch cs
        else (none, { st with optarg := none })
      | _ => (none, { st with optarg := none })

/-- The option string of `parse_arguments`: `":hvVd:"`. -/
def optstring : List Char := [':', 'h', 'v', 'V', 'd', ':']

/-- An iteration bound for loops over `getopt`: every call that does not return -1
uses up at least one character of `argv`. -/
def getopt_fuel (argv : List String) : Nat :=
  (argv.map (fun s => s.length + 1)).sum + 1

/-! ## `main.c` -/

/-- The constant `MSG_LEN` (`main.c` 16). -/
def MSG_LEN : Nat := 256

/-- The `isprint` test of the C locale. -/
def isprint (ch : Char) : Bool := decide (32 ≤ ch.toNat) && decide (ch.toNat ≤ 126)

/-- One upper-case hexadecimal digit. -/
def hex_digit (n : Nat) : Char :=
  if n < 10 then Char.ofNat (48 + n) else Char.ofNat (55 + n)

/-- The `"%02X"` conversion of an `unsigned char`. -/
def fmt_02X (n : Nat) : String :=
  String.mk [hex_digit (n % 256 / 16), hex_digit (n % 16)]

/-- The call `snprintf(buf + off, size - off, ...)` on a buffer of `size` bytes that
holds the C string `buf`, where the formatted text is `s`: at most
`size - off - 1` characters are stored after the first `off`, and the result
is the length of `s`. A call with `off` at or past `size` is outside the
buffer; here it stores nothing. -/
def snprintf_at (size : Nat) (buf : List Char) (off : Nat) (s : List Char) : List Char × Nat :=
  (if off < size then buf.take off ++ s.take (size - off - 1) else buf, s.length)

/-- The buffer `msg`, the offset `off`, and (as instrumentation) the offsets at
which `snprintf` was called so far. -/
structure msg_state where
  msg : List Char
  off : Nat
  calls : List Nat
deriving DecidableEq, Repr

/-- The loop `for(i = optind; i < argc && off < sizeof msg; ++i)` (`main.c` 162-165),
over the elements from `optind` on. -/
def unexpected_loop : List String → msg_state → msg_state
  | [], s => s
  | arg :: rest, s =>
    if s.off < MSG_LEN then
      let r := snprintf_at MSG_LEN s.msg s.off (' ' :: arg.data)
      unexpected_loop rest { msg := r.1, off := s.off + r.2, calls := s.calls ++ [s.off] }
    else s

/-- The message builder of `parse_arguments` (`main.c` 156-165). -/
def unexpected_message (argv : List String) (optind : Nat) : msg_state :=
  let argc := argv.length
  let header := "Unexpected argument" ++ (if argc - optind > 1 then "s" else "") ++ ":"
  let r := snprintf_at MSG_LEN [] 0 header.data
  unexpected_loop (argv.drop optind) { msg := r.1, off := 0 + r.2, calls := [0] }

/-- The body of the `switch` in `parse_arguments` (`main.c` 85-149), for a result
`opt` of `getopt` other than -1. -/
def parse_switch (opt : Char) (st : getopt_state) (err : Option p101_error) (args : arguments) :
    Option p101_error × arguments :=
  if opt = 'h' then
    (P101_ERROR_RAISE_USER err none error_code.ERR_USAGE, args)
  else if opt = 'v' then
    (err, { args with verbose := true })
  else if opt = 'V' then
    (err, { args with fsm_verbose := true })
  else if opt = 'd' then
    let err1 :=
      if args.delay_str.isSome then
        P101_ERROR_RAISE_USER err (some "Option '-d' specified more than once.")
          error_code.ERR_USAGE
      else err
    let err2 :=
      if st.optarg = none ∨ st.optarg = some "" then
        P101_ERROR_RAISE_USER err1 (some "Option '-d' requires a non-empty value.")
          error_code.ERR_USAGE
      else err1
    (err2, { args with delay_str := st.optarg })
  else if opt = ':' then
    let msg := "Option '-" ++ String.singleton (if st.optopt.toNat = 0 then '?' else st.optopt)
      ++ "' requires an argument."
    (P101_ERROR_RAISE_USER err (some msg) error_code.ERR_USAGE, args)
  else if opt = '?' then
    let msg :=
      if isprint st.optopt then "Unknown option '-" ++ String.singleton st.optopt ++ "'."
      else "Unknown option character 0x" ++ fmt_02X st.optopt.toNat ++ "."
    (P101_ERROR_RAISE_USER err (some msg) error_code.ERR_USAGE, args)
  else
    let msg := "Internal error: unhandled option '-"
      ++ String.singleton (if isprint opt then opt else '?') ++ "' returned by getopt."
    (P101_ERROR_RAISE_USER err (some msg) error_code.ERR_USAGE, args)

/-- The state of `parse_arguments` between iterations. -/
structure parse_state where
  st : getopt_state
  err : Option p101_error
  args : arguments
deriving DecidableEq, Repr

/-- The loop `while((opt = getopt(...)) != -1 && p101_error_has_no_error(err))`
(`main.c` 83-150); `none` when `fuel` iterations do not finish it. -/
def parse_loop (argv : List String) : Nat → parse_state → Option parse_state
  | 0, _ => none
  | fuel + 1, s =>
    match getopt argv optstring s.st with
    | (none, st1) => some { s with st := st1 }
    | (some opt, st1) =>
      if p101_error_has_no_error s.err then
        let r := parse_switch opt st1 s.err s.args
        parse_loop argv fuel { st := st1, err := r.1, args := r.2 }
      else some { s with st := st1 }

/-- `parse_arguments` (`main.c` 75-170). -/
def parse_arguments (err : Option p101_error) (argv : List String) (args : arguments) :
    Option parse_state :=
  match parse_loop argv (getopt_fuel argv) { st := getopt_init, err := err, args := args } with
  | none => none
  | some s =>
    if p101_error_has_no_error s.err then
      if s.st.optind < argv.length then
        let m := unexpected_message argv s.st.optind
        some { s with err := P101_ERROR_RAISE_USER s.err (some (String.mk m.msg))
                               error_code.ERR_USAGE }
      else some s
    else some s

/-- `check_arguments` (`main.c` 172-184). -/
def check_arguments (err : Option p101_error) (args : arguments) : Option p101_error :=
  if args.delay_str = none ∨ args.delay_str = some "" then
    P101_ERROR_RAISE_USER err (some "The delay is required.") error_code.ERR_USAGE
  else err

/-- The constant `UINT_MAX` of a 32-bit `unsigned int`. -/
def UINT_MAX : Nat := 4294967295

/-- The value of a string of decimal digits, `none` when a character is not a
digit. -/
def decimal_value : List Char → Nat → Option Nat
  | [], acc => some acc
  | ch :: cs, acc => if ch.isDigit then decimal_value cs (acc * 10 + (ch.toNat - 48)) else none

/-- Modelled from the spec: `p101_parse_unsigned_int` of the `p101_convert` library,
which is not among the sources. The spec asks for "a non-empty string parsed
as a non-negative integer": a non-empty string of decimal digits whose value
fits an `unsigned int` converts, anything else is an error (`none`). -/
def p101_parse_unsigned_int (str : Option String) : Option Nat :=
  match str with
  | none => none
  | some s =>
    if s.data.isEmpty then none
    else
      match decimal_value s.data 0 with
      | none => none
      | some n => if n ≤ UINT_MAX then some n else none

/-- Modelled from the spec: the error `p101_parse_unsigned_int` records in `err` when
the conversion fails. Its class, code and text are not visible to the
program: `convert_arguments` replaces it at once. -/
def conversion_error : p101_error :=
  { type := p101_error_type.P101_ERROR_SYSTEM, code := error_code.ERR_OTHER 0,
    message := some "conversion failed" }

/-- `convert_arguments` (`main.c` 186-200): convert, and turn any error now in `err`
into a usage error. -/
def convert_arguments (err : Option p101_error) (args : arguments) :
    Option p101_error × arguments :=
  -- args->delay = p101_parse_unsigned_int(env, err, args->delay_str, 0);
  let r := p101_parse_unsigned_int args.delay_str
  let err1 := match r with
    | some _ => err
    | none => some conversion_error
  let args1 := { args with delay := r.getD 0 }
  if p101_error_has_error err1 then
    (P101_ERROR_RAISE_USER err1 (some "delay must be a positive integer.") error_code.ERR_USAGE,
     args1)
  else (err1, args1)

/-- The lines `usage` always prints (`main.c` 211-215). -/
def usage_text (program_name : String) : List io_event :=
  [ io_event.stderr ("Usage: " ++ program_name ++ " [-h] [-v] -d <delay>\n"),
    io_event.stderr "Options:\n",
    io_event.stderr "  -h                Display this help message and exit\n",
    io_event.stderr "  -v                Enable verbose tracing\n",
    io_event.stderr "  -d <delay>        delay in seconds (required)\n" ]

/-- The output of `usage` (`main.c` 202-217), which then calls `exit(exit_code)`. -/
def usage (program_name : String) (message : Option String) : List io_event :=
  (match message with
   | some m => [io_event.stderr (m ++ "\n\n")]
   | none => []) ++ usage_text program_name

/-- How a run of the program ends: the exit status, everything it wrote, and (as
instrumentation) whether `run_fsm` was called and what the interpreter left. -/
structure proc_result where
  status : Int
  events : List io_event
  fsm_called : Bool
  fsm : Option fsm_result
deriving DecidableEq, Repr

/-- The text `"%s"` prints for a message. -/
def fmt_s (m : Option String) : String :=
  match m with
  | some s => s
  | none => "(null)"

/-- The label `done:` of `main` (`main.c` 57-72). -/
def main_done (argv : List String) (err : Option p101_error) (ret_val : Int)
    (events : List io_event) (fsm_called : Bool) (fsm : Option fsm_result) : proc_result :=
  if p101_error_has_error err then
    if p101_error_is_error err p101_error_type.P101_ERROR_USER error_code.ERR_USAGE then
      -- usage(env, argv[0], EXIT_FAILURE, msg) does not return
      { status := EXIT_FAILURE,
        events := events ++ usage (argv.headD "") (p101_error_get_message err),
        fsm_called := fsm_called, fsm := fsm }
    else
      { status := EXIT_FAILURE,
        events := events ++ [io_event.stderr (fmt_s (p101_error_get_message err) ++ "\n")],
        fsm_called := fsm_called, fsm := fsm }
  else
    { status := ret_val, events := events, fsm_called := fsm_called, fsm := fsm }

/-- The argument structure after `p101_memset(env, &args, 0, sizeof(args))`. -/
def args_zero : arguments :=
  { delay_str := none, delay := 0, verbose := false, fsm_verbose := false }

/-- `main` (`main.c` 18-73). `none` only when a loop does not finish. -/
def main (lib : p101_fsm_lib) (argv : List String) : Option proc_result :=
  match parse_arguments none argv args_zero with
  | none => none
  | some s =>
    if p101_error_has_error s.err then
      some (main_done argv s.err EXIT_FAILURE [] false none)
    else
      let err2 := check_arguments s.err s.args
      if p101_error_has_error err2 then
        some (main_done argv err2 EXIT_FAILURE [] false none)
      else
        let r := convert_arguments err2 s.args
        if p101_error_has_error r.1 then
          some (main_done argv r.1 EXIT_FAILURE [] false none)
        else
          match run_fsm lib r.1 r.2 with
          | none => none
          | some f => some (main_done argv f.err f.ret f.events true f.fsm)

/-! ## Derived notions used to state the properties -/

/-- Every result of `getopt` on `argv` up to the first -1, each with the `optarg`
it came with: the options of the command line, in order. -/
def getopt_scan (argv : List String) : Nat → getopt_state → Option (List (Char × Option String))
  | 0, _ => none
  | fuel + 1, st =>
    match getopt argv optstring st with
    | (none, _) => some []
    | (some opt, st1) =>
      match getopt_scan argv fuel st1 with
      | none => none
      | some l => some ((opt, st1.optarg) :: l)

/-- The options of a command line. -/
def options_of (argv : List String) : List (Char × Option String) :=
  (getopt_scan argv (getopt_fuel argv) getopt_init).getD []

/-- The state of `err` and `args` where `main` either jumps to `done` or calls
`run_fsm`: after `parse_arguments`, `check_arguments` and `convert_arguments`,
each skipped once an error is recorded (`main.c` 29-53). -/
def arguments_outcome (argv : List String) : Option (Option p101_error × arguments) :=
  match parse_arguments none argv args_zero with
  | none => none
  | some s =>
    if p101_error_has_error s.err then some (s.err, s.args)
    else
      let err2 := check_arguments s.err s.args
      if p101_error_has_error err2 then some (err2, s.args)
      else
        let r := convert_arguments err2 s.args
        some r

/-- The header of the "Unexpected argument" message (`main.c` 160). -/
def unexpected_header (argv : List String) (optind : Nat) : String :=
  "Unexpected argument" ++ (if argv.length - optind > 1 then "s" else "") ++ ":"

/-- The text the "Unexpected argument" message would be in an unbounded buffer:
the header, then a space and the argument for each element from `optind` on. -/
def unexpected_text (argv : List String) (optind : Nat) : List Char :=
  (unexpected_header argv optind).data
    ++ ((argv.drop optind).map (fun arg => ' ' :: arg.data)).flatten

/-- What the interpreter leaves after the example chain, for a given `fsm_verbose`
and delay. -/
def example_result (v : Bool) (d : Nat) : fsm_result :=
  { from_state := C, to_state := P101_FSM_EXIT, arg := d, fsm_err := none,
    events :=
      notify (registered_info v).will_change_state_notifier P101_FSM_INIT A
      ++ (a d).events
      ++ notify_did (registered_info v).did_change_state_notifier P101_FSM_INIT A B
      ++ notify (registered_info v).will_change_state_notifier A B
      ++ (b d).events
      ++ notify_did (registered_info v).did_change_state_notifier A B C
      ++ notify (registered_info v).will_change_state_notifier B C
      ++ (c d).events
      ++ notify_did (registered_info v).did_change_state_notifier B C P101_FSM_EXIT,
    visited := [P101_FSM_INIT, A, B, C, P101_FSM_EXIT] }

/-- The characters of the given elements, one more for each element. -/
def arg_weight (l : List String) : Nat := (l.map (fun s => s.length + 1)).sum

/-- What is left for `getopt` to read: the unread option characters of the element
being scanned and the elements after it. -/
def getopt_measure (argv : List String) (st : getopt_state) : Nat :=
  st.nextchar.length
    + arg_weight (argv.drop (if st.nextchar.isEmpty then st.optind else st.optind + 1))

/-- An error state is either empty or a usage error. -/
def usage_or_none (err : Option p101_error) : Prop :=
  err = none ∨ ∃ m, err = some { type := p101_error_type.P101_ERROR_USER,
                                  code := error_code.ERR_USAGE, message := m }

/-- Where `getopt` stands relative to element `i`: not past it, and not inside it. -/
def before_element (i : Nat) (st : getopt_state) : Prop :=
  st.optind ≤ i ∧ (st.nextchar ≠ [] → st.optind < i)

/-- A command line with one positional argument of 300 characters. -/
def overlong_argv : List String := ["prog", "-d", "1", String.mk (List.replicate 300 'x')]

/-- A library whose interpreter ends with an error in `fsm_err`. -/
def failing_lib : p101_fsm_lib :=
  { info_create_error := none,
    fsm_run := fun _ arg _ =>
      some { from_state := P101_FSM_INIT, to_state := A, arg := arg,
             fsm_err := some { type := p101_error_type.P101_ERROR_USER,
                               code := error_code.ERR_OTHER 1,
                               message := some "Unknown state transition" },
             events := [], visited := [] } }

/-! ## Lemmas -/

/-! ### The example chain on the interpreter -/

/-- With four iterations or more the interpreter finishes the example chain with
`example_result`. -/
theorem example_run (k : Nat) (v : Bool) (d : Nat) :
    p101_fsm_run (k + 4) (registered_info v) d transitions = some (example_result v d) := by
  cases v <;>
  simp [p101_fsm_run, fsm_loop, transitions, fsm_transition, registered_info, notify, notify_did,
    a, b, c, A, B, C, P101_FSM_INIT, P101_FSM_EXIT, P101_FSM_USER_START, List.find?,
    example_result]

/-! ### Termination of loops over `getopt` -/

/-- Dropping one more element does not add weight. -/
theorem arg_weight_drop_succ_le (argv : List String) (n : Nat) :
    arg_weight (argv.drop (n + 1)) ≤ arg_weight (argv.drop n) := by
  by_cases h : n < argv.length
  · rw [List.drop_eq_getElem_cons h]
    simp only [arg_weight, List.map_cons, List.sum_cons]
    omega
  · have h1 : argv.drop (n + 1) = [] := List.drop_eq_nil_of_le (by omega)
    simp [h1, arg_weight]

/-- The weight from element `n` on is that of element `n` plus the rest. -/
theorem arg_weight_drop_of_get (argv : List String) (n : Nat) (arg : String)
    (h : argv[n]? = some arg) :
    arg_weight (argv.drop n) = arg.data.length + 1 + arg_weight (argv.drop (n + 1)) := by
  obtain ⟨hlt, rfl⟩ := List.getElem?_eq_some.mp h
  rw [List.drop_eq_getElem_cons hlt]
  simp only [arg_weight, List.map_cons, List.sum_cons, String.length]

/-- After one option character, what is left is at most the rest of the element and the
elements after it. -/
theorem getopt_char_measure (argv : List String) (os : List Char) (st : getopt_state)
    (ch : Char) (cs : List Char) :
    getopt_measure argv (getopt_char argv os st ch cs).2
      ≤ cs.length + arg_weight (argv.drop (st.optind + 1)) := by
  have h2 : arg_weight (argv.drop (st.optind + 2)) ≤ arg_weight (argv.drop (st.optind + 1)) :=
    arg_weight_drop_succ_le argv (st.optind + 1)
  unfold getopt_char
  cases cs with
  | nil =>
    split
    · simp [getopt_measure]
    · simp [getopt_measure]
    · simp only [List.isEmpty_nil, if_true]
      split
      · simp [getopt_measure]; omega
      · simp [getopt_measure]
  | cons x xs =>
    split <;> simp [getopt_measure]

/-- A call of `getopt` that does not return -1 uses up input. -/
theorem getopt_decreases (argv : List String) (os : List Char) (st st1 : getopt_state)
    (opt : Char) (h : getopt argv os st = (some opt, st1)) :
    getopt_measure argv st1 < getopt_measure argv st := by
  unfold getopt at h
  split at h
  · next ch cs hn =>
    have := getopt_char_measure argv os st ch cs
    rw [h] at this
    simp [getopt_measure, hn] at this ⊢
    omega
  · next hn =>
    split at h
    · simp at h
    · next arg harg =>
      split at h
      · next c0 ch cs hdata =>
        have hw := arg_weight_drop_of_get argv st.optind arg harg
        split at h
        · split at h
          · simp at h
          · have := getopt_char_measure argv os st ch cs
            rw [h] at this
            simp [getopt_measure, hn, hw, hdata] at this ⊢
            omega
        · simp at h
      · simp at h

/-- The bound `getopt_fuel` exceeds what is left at the start. -/
theorem getopt_init_measure (argv : List String) :
    getopt_measure argv getopt_init < getopt_fuel argv := by
  have h : arg_weight (argv.drop 1) ≤ arg_weight (argv.drop 0) := arg_weight_drop_succ_le argv 0
  simp only [List.drop_zero] at h
  simp only [getopt_measure, getopt_init, List.length_nil, List.isEmpty_nil, if_true, getopt_fuel]
  have h2 : arg_weight argv = (argv.map (fun s => s.length + 1)).sum := rfl
  omega

/-! ### The loop of `parse_arguments` -/

/-- When `getopt` returns -1 the loop ends. -/
theorem parse_loop_none (argv : List String) (fuel : Nat) (s : parse_state) (st1 : getopt_state)
    (h : getopt argv optstring s.st = (none, st1)) :
    parse_loop argv (fuel + 1) s = some { s with st := st1 } := by
  simp [parse_loop, h]

/-- With no error recorded, an option goes through the `switch` and the loop goes on. -/
theorem parse_loop_some (argv : List String) (fuel : Nat) (s : parse_state) (st1 : getopt_state)
    (opt : Char) (h : getopt argv optstring s.st = (some opt, st1)) (he : s.err = none) :
    parse_loop argv (fuel + 1) s =
      parse_loop argv fuel { st := st1, err := (parse_switch opt st1 none s.args).1,
                             args := (parse_switch opt st1 none s.args).2 } := by
  simp [parse_loop, h, he, p101_error_has_no_error]

/-- Once an error is recorded the loop ends with that error and the same `args`. -/
theorem parse_loop_sticky (argv : List String) (fuel : Nat) (s r : parse_state) (e : p101_error)
    (he : s.err = some e) (h : parse_loop argv fuel s = some r) :
    r.err = some e ∧ r.args = s.args := by
  cases fuel with
  | zero => simp [parse_loop] at h
  | succ n =>
    unfold parse_loop at h
    split at h
    · simp at h; subst h; exact ⟨he, rfl⟩
    · simp [he, p101_error_has_no_error] at h; subst h; exact ⟨rfl, rfl⟩

/-- With fuel above what is left to read, the loop finishes. -/
theorem parse_loop_total (argv : List String) (fuel : Nat) :
    ∀ s : parse_state, getopt_measure argv s.st < fuel → ∃ r, parse_loop argv fuel s = some r := by
  induction fuel with
  | zero => intro s h; omega
  | succ n ih =>
    intro s h
    unfold parse_loop
    split
    · exact ⟨_, rfl⟩
    · next opt st1 hg =>
      have hd := getopt_decreases argv optstring s.st st1 opt hg
      split
      · exact ih _ (by simp only; omega)
      · exact ⟨_, rfl⟩

/-- With fuel above what is left to read, the scan finishes. -/
theorem getopt_scan_total (argv : List String) (fuel : Nat) :
    ∀ st : getopt_state, getopt_measure argv st < fuel → ∃ l, getopt_scan argv fuel st = some l := by
  induction fuel with
  | zero => intro s h; omega
  | succ n ih =>
    intro st h
    unfold getopt_scan
    split
    · exact ⟨_, rfl⟩
    · next opt st1 hg =>
      have hd := getopt_decreases argv optstring st st1 opt hg
      obtain ⟨l, hl⟩ := ih st1 (by omega)
      simp [hl]

/-- The `switch` only ever raises usage errors. -/
theorem parse_switch_usage (opt : Char) (st : getopt_state) (err : Option p101_error)
    (args : arguments) (h : usage_or_none err) : usage_or_none (parse_switch opt st err args).1 := by
  unfold parse_switch
  simp only [P101_ERROR_RAISE_USER]
  repeat' split
  all_goals first | exact h | exact Or.inr ⟨_, rfl⟩

/-- The loop only ever raises usage errors. -/
theorem parse_loop_usage (argv : List String) (fuel : Nat) :
    ∀ s r : parse_state, usage_or_none s.err → parse_loop argv fuel s = some r →
      usage_or_none r.err := by
  induction fuel with
  | zero => intro s r _ h; simp [parse_loop] at h
  | succ n ih =>
    intro s r hs h
    unfold parse_loop at h
    split at h
    · simp at h; subst h; exact hs
    · split at h
      · exact ih _ r (parse_switch_usage _ _ _ _ hs) h
      · simp at h; subst h; exact hs

/-- The case `h` raises. -/
theorem parse_switch_h (st : getopt_state) (err : Option p101_error) (args : arguments) :
    (parse_switch 'h' st err args).1 ≠ none := by
  simp [parse_switch, P101_ERROR_RAISE_USER]

/-- The case `d` raises when a delay was already given. -/
theorem parse_switch_d_dup (st : getopt_state) (err : Option p101_error) (args : arguments)
    (h : args.delay_str ≠ none) : (parse_switch 'd' st err args).1 ≠ none := by
  have h1 : args.delay_str.isSome = true := by
    cases hd : args.delay_str with
    | none => exact absurd hd h
    | some v => rfl
  unfold parse_switch
  simp only [P101_ERROR_RAISE_USER, h1]
  simp only [Char.reduceEq, if_false, if_true]
  split <;> simp

/-- When the case `d` does not raise, no delay was given before and the value is stored. -/
theorem parse_switch_d_ok (st : getopt_state) (args : arguments)
    (h : (parse_switch 'd' st none args).1 = none) :
    args.delay_str = none ∧ st.optarg ≠ none ∧ st.optarg ≠ some ""
      ∧ (parse_switch 'd' st none args).2.delay_str = st.optarg := by
  unfold parse_switch at h ⊢
  simp only [P101_ERROR_RAISE_USER, Char.reduceEq, if_false, if_true] at h ⊢
  split at h
  · simp at h
  · next h1 =>
    cases hd : args.delay_str with
    | none => exact ⟨rfl, fun hc => h1 (Or.inl hc), fun hc => h1 (Or.inr hc), trivial⟩
    | some v => simp [hd] at h

/-- Only the case `d` touches `delay_str`. -/
theorem parse_switch_keep (opt : Char) (st : getopt_state) (err : Option p101_error)
    (args : arguments) (h : opt ≠ 'd') :
    (parse_switch opt st err args).2.delay_str = args.delay_str := by
  unfold parse_switch
  repeat' split
  all_goals rfl

/-- One iteration from a state without error: either the `switch` raises and the loop ends
with that error, or it goes on without error. -/
theorem parse_loop_step (argv : List String) (fuel : Nat) (st st1 : getopt_state) (opt : Char)
    (args : arguments) (r : parse_state)
    (hg : getopt argv optstring st = (some opt, st1))
    (h : parse_loop argv (fuel + 1) { st := st, err := none, args := args } = some r) :
    ((parse_switch opt st1 none args).1 ≠ none ∧ r.err = (parse_switch opt st1 none args).1
        ∧ r.args = (parse_switch opt st1 none args).2)
    ∨ ((parse_switch opt st1 none args).1 = none
        ∧ parse_loop argv fuel { st := st1, err := none,
                                 args := (parse_switch opt st1 none args).2 } = some r) := by
  rw [parse_loop_some argv fuel _ st1 opt hg rfl] at h
  cases he : (parse_switch opt st1 none args).1 with
  | none => right; rw [he] at h; exact ⟨rfl, h⟩
  | some e =>
    left
    have := parse_loop_sticky argv fuel _ r e (by simp only [he]) h
    exact ⟨by simp, this.1, this.2⟩

/-! ### Options of the command line against the loop -/

/-- If `h` is among the options still to come, the loop ends with an error. -/
theorem scan_h (argv : List String) (fuel : Nat) :
    ∀ (st : getopt_state) (args : arguments) (l : List (Char × Option String)) (r : parse_state),
      getopt_scan argv fuel st = some l → (∃ o ∈ l, o.1 = 'h') →
      parse_loop argv fuel { st := st, err := none, args := args } = some r → r.err ≠ none := by
  induction fuel with
  | zero => intro st args l r h; simp [getopt_scan] at h
  | succ n ih =>
    intro st args l r hs hm hl
    unfold getopt_scan at hs
    split at hs
    · simp at hs; subst hs; simp at hm
    · next opt st1 hg =>
      split at hs
      · simp at hs
      · next l1 hl1 =>
        simp at hs; subst hs
        rcases parse_loop_step argv n st st1 opt args r hg hl with ⟨h1, h2, _⟩ | ⟨h1, h2⟩
        · rw [h2]; exact h1
        · have hne : opt ≠ 'h' := by
            intro hc; subst hc; exact parse_switch_h _ _ _ h1
          obtain ⟨o, ho, ho1⟩ := hm
          simp only [List.mem_cons] at ho
          rcases ho with rfl | ho
          · exact absurd ho1 hne
          · exact ih st1 _ l1 r hl1 ⟨o, ho, ho1⟩ h2

/-- If `d` is still to come and a delay is already stored, the loop ends with an error. -/
theorem scan_d1 (argv : List String) (fuel : Nat) :
    ∀ (st : getopt_state) (args : arguments) (l : List (Char × Option String)) (r : parse_state),
      getopt_scan argv fuel st = some l → (∃ o ∈ l, o.1 = 'd') → args.delay_str ≠ none →
      parse_loop argv fuel { st := st, err := none, args := args } = some r → r.err ≠ none := by
  induction fuel with
  | zero => intro st args l r h; simp [getopt_scan] at h
  | succ n ih =>
    intro st args l r hs hm hd hl
    unfold getopt_scan at hs
    split at hs
    · simp at hs; subst hs; simp at hm
    · next opt st1 hg =>
      split at hs
      · simp at hs
      · next l1 hl1 =>
        simp at hs; subst hs
        rcases parse_loop_step argv n st st1 opt args r hg hl with ⟨h1, h2, _⟩ | ⟨h1, h2⟩
        · rw [h2]; exact h1
        · have hne : opt ≠ 'd' := by
            intro hc; subst hc; exact parse_switch_d_dup _ _ _ hd h1
          obtain ⟨o, ho, ho1⟩ := hm
          simp only [List.mem_cons] at ho
          rcases ho with rfl | ho
          · exact absurd ho1 hne
          · refine ih st1 _ l1 r hl1 ⟨o, ho, ho1⟩ ?_ h2
            rw [parse_switch_keep opt st1 none args hne]; exact hd

/-- If `d` is still to come twice, the loop ends with an error. -/
theorem scan_d2 (argv : List String) (fuel : Nat) :
    ∀ (st : getopt_state) (args : arguments) (l : List (Char × Option String)) (r : parse_state),
      getopt_scan argv fuel st = some l → 2 ≤ l.countP (fun o => o.1 == 'd') →
      parse_loop argv fuel { st := st, err := none, args := args } = some r → r.err ≠ none := by
  induction fuel with
  | zero => intro st args l r h; simp [getopt_scan] at h
  | succ n ih =>
    intro st args l r hs hm hl
    unfold getopt_scan at hs
    split at hs
    · simp at hs; subst hs; simp at hm
    · next opt st1 hg =>
      split at hs
      · simp at hs
      · next l1 hl1 =>
        simp at hs; subst hs
        rcases parse_loop_step argv n st st1 opt args r hg hl with ⟨h1, h2, _⟩ | ⟨h1, h2⟩
        · rw [h2]; exact h1
        · by_cases hc : opt = 'd'
          · subst hc
            obtain ⟨_, h3, _, h5⟩ := parse_switch_d_ok st1 args h1
            have hcount : 1 ≤ l1.countP (fun o => o.1 == 'd') := by
              rw [List.countP_cons] at hm
              simp only [beq_self_eq_true, if_true] at hm
              omega
            have hex : ∃ o ∈ l1, o.1 = 'd' := by
              have := List.countP_pos_iff.mp (show 0 < l1.countP (fun o => o.1 == 'd') by omega)
              obtain ⟨o, ho, ho1⟩ := this
              exact ⟨o, ho, by simpa using ho1⟩
            exact scan_d1 argv n st1 _ l1 r hl1 hex (by rw [h5]; exact h3) h2
          · have hcount : 2 ≤ l1.countP (fun o => o.1 == 'd') := by
              rw [List.countP_cons] at hm
              simp only [beq_iff_eq, hc, if_false] at hm
              omega
            exact ih st1 _ l1 r hl1 hcount h2

/-- If `d` is not among the options still to come, `delay_str` is left as it is. -/
theorem scan_no_d (argv : List String) (fuel : Nat) :
    ∀ (st : getopt_state) (args : arguments) (l : List (Char × Option String)) (r : parse_state),
      getopt_scan argv fuel st = some l → (∀ o ∈ l, o.1 ≠ 'd') →
      parse_loop argv fuel { st := st, err := none, args := args } = some r →
      r.args.delay_str = args.delay_str := by
  induction fuel with
  | zero => intro st args l r h; simp [getopt_scan] at h
  | succ n ih =>
    intro st args l r hs hm hl
    unfold getopt_scan at hs
    split at hs
    · next st1 hg =>
      rw [parse_loop_none argv n _ st1 hg] at hl
      simp at hl; subst hl; rfl
    · next opt st1 hg =>
      split at hs
      · simp at hs
      · next l1 hl1 =>
        simp at hs; subst hs
        have hne : opt ≠ 'd' := hm (opt, st1.optarg) (by simp)
        have hk := parse_switch_keep opt st1 none args hne
        rcases parse_loop_step argv n st st1 opt args r hg hl with ⟨_, _, h3⟩ | ⟨_, h2⟩
        · rw [h3]; exact hk
        · rw [ih st1 _ l1 r hl1 (fun o ho => hm o (by simp [ho])) h2]; exact hk

/-! ### From the loop to `main` -/

/-- The function `parse_arguments` is the finished loop followed by the test for positional
arguments. -/
theorem parse_arguments_eq (argv : List String) :
    ∃ r, parse_loop argv (getopt_fuel argv) { st := getopt_init, err := none, args := args_zero }
          = some r
      ∧ usage_or_none r.err
      ∧ parse_arguments none argv args_zero = some
          (if r.err = none ∧ r.st.optind < argv.length then
            { st := r.st,
              err := P101_ERROR_RAISE_USER r.err
                (some (String.mk (unexpected_message argv r.st.optind).msg)) error_code.ERR_USAGE,
              args := r.args }
           else r) := by
  obtain ⟨r, hr⟩ := parse_loop_total argv (getopt_fuel argv)
    { st := getopt_init, err := none, args := args_zero } (getopt_init_measure argv)
  refine ⟨r, hr, parse_loop_usage argv _ _ r (Or.inl rfl) hr, ?_⟩
  unfold parse_arguments
  rw [hr]
  cases he : r.err with
  | none =>
    by_cases hlt : r.st.optind < argv.length
    · simp [p101_error_has_no_error, he, hlt]
    · simp [p101_error_has_no_error, he, hlt]
  | some e => simp [p101_error_has_no_error, he]

/-- The function `check_arguments` only raises usage errors. -/
theorem check_arguments_usage (err : Option p101_error) (args : arguments)
    (h : usage_or_none err) : usage_or_none (check_arguments err args) := by
  unfold check_arguments
  split
  · exact Or.inr ⟨_, rfl⟩
  · exact h

/-- After `convert_arguments` the error is empty or a usage error. -/
theorem convert_arguments_usage (err : Option p101_error) (args : arguments) :
    usage_or_none (convert_arguments err args).1 := by
  unfold convert_arguments
  simp only
  split
  · exact Or.inr ⟨_, rfl⟩
  · next h =>
    left
    simpa [p101_error_has_error] using h

/-- Processing the arguments always finishes, with no error or a usage error. -/
theorem arguments_outcome_total (argv : List String) :
    ∃ err args, arguments_outcome argv = some (err, args) ∧ usage_or_none err := by
  obtain ⟨r, _, hu, hp⟩ := parse_arguments_eq argv
  have hu2 : ∀ s, parse_arguments none argv args_zero = some s → usage_or_none s.err := by
    intro s hs
    rw [hp] at hs
    simp only [Option.some.injEq] at hs
    subst hs
    split
    · exact Or.inr ⟨_, rfl⟩
    · exact hu
  unfold arguments_outcome
  cases hs : parse_arguments none argv args_zero with
  | none => rw [hp] at hs; simp at hs
  | some s =>
    have h1 := hu2 s hs
    simp only
    split
    · exact ⟨_, _, rfl, h1⟩
    · have h2 := check_arguments_usage s.err s.args h1
      split
      · exact ⟨_, _, rfl, h2⟩
      · exact ⟨_, _, rfl, convert_arguments_usage _ s.args⟩

/-- The function `main` in terms of the outcome of the arguments. -/
theorem main_eq (lib : p101_fsm_lib) (argv : List String) :
    main lib argv =
      match arguments_outcome argv with
      | none => none
      | some (some e, _) => some (main_done argv (some e) EXIT_FAILURE [] false none)
      | some (none, args) =>
        match run_fsm lib none args with
        | none => none
        | some f => some (main_done argv f.err f.ret f.events true f.fsm) := by
  unfold main arguments_outcome
  cases hs : parse_arguments none argv args_zero with
  | none => rfl
  | some s =>
    simp only
    cases h1 : s.err with
    | some e => simp [p101_error_has_error]
    | none =>
      simp only [p101_error_has_error, Option.isSome_none, Bool.false_eq_true, if_false]
      cases h2 : check_arguments none s.args with
      | some e => simp
      | none =>
        simp only [Option.isSome_none, Bool.false_eq_true, if_false]
        rcases h3 : convert_arguments none s.args with ⟨e3, a3⟩
        cases e3 <;> simp

/-- On a usage error `main` prints the message and the usage text and exits with failure,
without calling `run_fsm`. -/
theorem main_of_usage_error (lib : p101_fsm_lib) (argv : List String) (e : p101_error)
    (args : arguments) (h : arguments_outcome argv = some (some e, args))
    (hu : usage_or_none (some e)) :
    main lib argv = some { status := EXIT_FAILURE, events := usage (argv.headD "") e.message,
                           fsm_called := false, fsm := none } := by
  rw [main_eq, h]
  rcases hu with hu | ⟨m, hm⟩
  · simp at hu
  · simp only [Option.some.injEq] at hm
    subst hm
    simp [main_done, p101_error_has_error, p101_error_is_error, p101_error_get_message]

/-- The scan behind `options_of` is complete. -/
theorem options_of_eq (argv : List String) :
    getopt_scan argv (getopt_fuel argv) getopt_init = some (options_of argv) := by
  obtain ⟨l, hl⟩ := getopt_scan_total argv (getopt_fuel argv) getopt_init (getopt_init_measure argv)
  simp [options_of, hl]

/-- An error of `parse_arguments` is the outcome. -/
theorem outcome_of_parse_error (argv : List String) (s : parse_state) (e : p101_error)
    (h : parse_arguments none argv args_zero = some s) (he : s.err = some e) :
    arguments_outcome argv = some (some e, s.args) := by
  simp [arguments_outcome, h, he, p101_error_has_error]

/-- An error at the end of the loop is a usage error and is what `main` reports. -/
theorem usage_error_of_loop_error (lib : p101_fsm_lib) (argv : List String) (r : parse_state)
    (hr : parse_loop argv (getopt_fuel argv) { st := getopt_init, err := none, args := args_zero }
            = some r)
    (he : r.err ≠ none) :
    ∃ m, parse_arguments none argv args_zero = some r
      ∧ r.err = some { type := p101_error_type.P101_ERROR_USER, code := error_code.ERR_USAGE,
                       message := m }
      ∧ main lib argv = some { status := EXIT_FAILURE, events := usage (argv.headD "") m,
                               fsm_called := false, fsm := none } := by
  have hu := parse_loop_usage argv _ _ r (Or.inl rfl) hr
  rcases hu with hu | ⟨m, hm⟩
  · exact absurd hu he
  · have hp : parse_arguments none argv args_zero = some r := by
      simp [parse_arguments, hr, hm, p101_error_has_no_error]
    refine ⟨m, hp, hm, ?_⟩
    exact main_of_usage_error lib argv _ r.args (outcome_of_parse_error argv r _ hp hm)
      (Or.inr ⟨m, rfl⟩)

/-! ### An element `-h` anywhere on the command line -/

/-- How one option character moves `optind` and `nextchar`. -/
theorem getopt_char_cases (argv : List String) (os : List Char) (st st1 : getopt_state)
    (ch : Char) (cs : List Char) (ro : Option Char)
    (h : getopt_char argv os st ch cs = (ro, st1)) :
    (cs ≠ [] ∧ st1.optind = st.optind ∧ st1.nextchar = cs)
    ∨ (st1.optind = st.optind + 1 ∧ st1.nextchar = []
        ∧ (cs = [] → ro = some ch ∨ ro = some '?' ∨ ro = some ':'))
    ∨ (cs = [] ∧ st1.optind = st.optind + 2 ∧ st1.nextchar = []
        ∧ optstring_lookup os ch = some true ∧ ro = some ch
        ∧ argv[st.optind + 1]? = st1.optarg) := by
  unfold getopt_char at h
  cases cs with
  | nil =>
    split at h
    · simp at h; obtain ⟨h1, h2⟩ := h; subst h2; right; left; simp [h1.symm]
    · simp at h; obtain ⟨h1, h2⟩ := h; subst h2; right; left; simp [h1.symm]
    · next hl =>
      simp only [List.isEmpty_nil, if_true] at h
      split at h
      · next v hv =>
        simp at h; obtain ⟨h1, h2⟩ := h; subst h2; right; right
        exact ⟨rfl, rfl, rfl, hl, h1.symm, hv⟩
      · simp at h; obtain ⟨h1, h2⟩ := h; subst h2; right; left
        refine ⟨rfl, rfl, fun _ => ?_⟩
        split at h1 <;> simp [h1.symm]
  | cons x xs =>
    split at h
    · simp at h; obtain ⟨_, h2⟩ := h; subst h2; left; simp
    · simp at h; obtain ⟨_, h2⟩ := h; subst h2; left; simp
    · simp at h; obtain ⟨_, h2⟩ := h; subst h2; right; left; simp

/-- In `":hvVd:"` only `d` takes an argument. -/
theorem optstring_lookup_true (ch : Char) (h : optstring_lookup optstring ch = some true) :
    ch = 'd' := by
  simp only [optstring, optstring_lookup] at h
  repeat' split at h
  all_goals first | (simp at h; done) | (rename_i hx; exact hx.1.symm)

/-- The cases `h`, `?` and `:` raise. -/
theorem parse_switch_raise (opt : Char) (st : getopt_state) (err : Option p101_error)
    (args : arguments) (h : opt = 'h' ∨ opt = '?' ∨ opt = ':') :
    (parse_switch opt st err args).1 ≠ none := by
  rcases h with rfl | rfl | rfl <;> simp [parse_switch, P101_ERROR_RAISE_USER]

/-- When `getopt` returns -1 before an element `-h`, `optind` is still not past it. -/
theorem getopt_none_before (argv : List String) (i : Nat) (st st1 : getopt_state)
    (hi : argv[i]? = some "-h") (hb : before_element i st)
    (h : getopt argv optstring st = (none, st1)) : st1.optind ≤ i := by
  unfold getopt at h
  split at h
  · next ch cs hn =>
    unfold getopt_char at h
    repeat' split at h
    all_goals simp at h
  · split at h
    · simp at h; rw [← h]; exact hb.1
    · next arg harg =>
      split at h
      · next c0 ch cs hdata =>
        split at h
        · split at h
          · next hdd =>
            simp at h; rw [← h]; simp only
            have hne : st.optind ≠ i := by
              intro hc
              rw [hc, hi] at harg
              simp only [Option.some.injEq] at harg
              rw [← harg] at hdata
              simp at hdata
              have hx := hdata.2.1
              rw [hdd.1] at hx
              simp at hx
            have := hb.1
            omega
          · unfold getopt_char at h
            repeat' split at h
            all_goals simp at h
        · simp at h; rw [← h]; exact hb.1
      · simp at h; rw [← h]; exact hb.1

/-- A call of `getopt` before an element `-h` stays before it, or returns an option that
raises, or takes `-h` as the value of `d`. -/
theorem getopt_some_before (argv : List String) (i : Nat) (st st1 : getopt_state) (opt : Char)
    (hi : argv[i]? = some "-h") (hb : before_element i st)
    (h : getopt argv optstring st = (some opt, st1)) :
    before_element i st1 ∨ (opt = 'h' ∨ opt = '?' ∨ opt = ':')
      ∨ (opt = 'd' ∧ st1.optarg = some "-h") := by
  have key : ∀ ch cs, getopt_char argv optstring st ch cs = (some opt, st1) →
      (st.optind < i ∨ (ch = 'h' ∧ cs = [])) →
      before_element i st1 ∨ (opt = 'h' ∨ opt = '?' ∨ opt = ':')
        ∨ (opt = 'd' ∧ st1.optarg = some "-h") := by
    intro ch cs hc hlt
    rcases getopt_char_cases argv optstring st st1 ch cs (some opt) hc with
      ⟨h1, h2, h3⟩ | ⟨h1, h2, h3⟩ | ⟨h1, h2, h3, h4, h5, h6⟩
    · rcases hlt with hlt | ⟨_, hcs⟩
      · left; exact ⟨by omega, fun _ => by omega⟩
      · exact absurd hcs h1
    · rcases hlt with hlt | ⟨hch, hcs⟩
      · left; exact ⟨by omega, fun hn => absurd h2 hn⟩
      · right; left
        have := h3 hcs
        simp only [Option.some.injEq] at this
        rw [hch] at this
        exact this
    · have hd := optstring_lookup_true ch h4
      simp only [Option.some.injEq] at h5
      rcases hlt with hlt | ⟨hch, _⟩
      · by_cases h7 : st.optind + 2 ≤ i
        · left; exact ⟨by omega, fun hn => absurd h3 hn⟩
        · right; right
          have h8 : st.optind + 1 = i := by omega
          rw [h8, hi] at h6
          exact ⟨by rw [h5, hd], h6.symm⟩
      · rw [hch] at hd; simp at hd
  unfold getopt at h
  split at h
  · next ch cs hn =>
    exact key ch cs h (Or.inl (hb.2 (by simp [hn])))
  · split at h
    · simp at h
    · next arg harg =>
      split at h
      · next c0 ch cs hdata =>
        split at h
        · split at h
          · simp at h
          · refine key ch cs h ?_
            by_cases hlt : st.optind < i
            · exact Or.inl hlt
            · right
              have heq : st.optind = i := by have := hb.1; omega
              rw [heq, hi] at harg
              simp only [Option.some.injEq] at harg
              rw [← harg] at hdata
              simp at hdata
              exact ⟨hdata.2.1.symm, hdata.2.2⟩
        · simp at h
      · simp at h

/-- Once an error is recorded or `-h` is stored as the delay, that stays so to the end of
the loop. -/
theorem parse_loop_taken (argv : List String) (fuel : Nat) :
    ∀ s r : parse_state, (s.err ≠ none ∨ s.args.delay_str = some "-h") →
      parse_loop argv fuel s = some r → (r.err ≠ none ∨ r.args.delay_str = some "-h") := by
  induction fuel with
  | zero => intro s r _ h; simp [parse_loop] at h
  | succ n ih =>
    intro s r hs h
    cases he : s.err with
    | some e =>
      left
      rw [(parse_loop_sticky argv _ s r e he h).1]; simp
    | none =>
      have hd : s.args.delay_str = some "-h" := by
        rcases hs with hs | hs
        · exact absurd he hs
        · exact hs
      have hs_eq : s = { st := s.st, err := none, args := s.args } := by
        cases s; simp at he; simp [he]
      rcases hg : getopt argv optstring s.st with ⟨ro, st1⟩
      cases ro with
      | none =>
        rw [parse_loop_none argv n s st1 hg] at h
        simp at h; subst h
        right; exact hd
      | some opt =>
        rw [hs_eq] at h
        rcases parse_loop_step argv n s.st st1 opt s.args r hg h with ⟨h1, h2, _⟩ | ⟨h1, h2⟩
        · left; rw [h2]; exact h1
        · have hne : opt ≠ 'd' := by
            intro hc; subst hc
            exact parse_switch_d_dup st1 none s.args (by simp [hd]) h1
          exact ih _ r (Or.inr (by simp only; rw [parse_switch_keep opt st1 none s.args hne]; exact hd)) h2

/-- From before an element `-h` the loop ends with an error, or with `-h` as the delay, or
without having passed the element. -/
theorem parse_loop_before (argv : List String) (i : Nat) (hi : argv[i]? = some "-h")
    (fuel : Nat) :
    ∀ (st : getopt_state) (args : arguments) (r : parse_state), before_element i st →
      parse_loop argv fuel { st := st, err := none, args := args } = some r →
      (r.err ≠ none ∨ r.args.delay_str = some "-h" ∨ r.st.optind ≤ i) := by
  induction fuel with
  | zero => intro st args r _ h; simp [parse_loop] at h
  | succ n ih =>
    intro st args r hb h
    rcases hg : getopt argv optstring st with ⟨ro, st1⟩
    cases ro with
    | none =>
      rw [parse_loop_none argv n _ st1 hg] at h
      simp at h; subst h
      right; right
      exact getopt_none_before argv i st st1 hi hb hg
    | some opt =>
      rcases parse_loop_step argv n st st1 opt args r hg h with ⟨h1, h2, _⟩ | ⟨h1, h2⟩
      · left; rw [h2]; exact h1
      · rcases getopt_some_before argv i st st1 opt hi hb hg with hb1 | hr | ⟨hd, ha⟩
        · exact ih st1 _ r hb1 h2
        · exact absurd h1 (parse_switch_raise opt st1 none args hr)
        · subst hd
          have h4 := (parse_switch_d_ok st1 args h1).2.2.2
          rcases parse_loop_taken argv n _ r (Or.inr (by simp only; rw [h4, ha])) h2 with h5 | h5
          · exact Or.inl h5
          · exact Or.inr (Or.inl h5)

/-- An element of the tail sits at an index from 1 on. -/
theorem mem_tail_index (argv : List String) (x : String) (h : x ∈ argv.tail) :
    ∃ i, 1 ≤ i ∧ argv[i]? = some x := by
  cases argv with
  | nil => simp at h
  | cons y ys =>
    simp only [List.tail_cons] at h
    obtain ⟨n, hn⟩ := List.mem_iff_getElem?.mp h
    exact ⟨n + 1, by omega, by simpa using hn⟩

/-- A command line with an element `-h` after the program name ends in a usage error. -/
theorem usage_error_of_h_element (lib : p101_fsm_lib) (argv : List String)
    (h : "-h" ∈ argv.tail) :
    ∃ m, main lib argv = some { status := EXIT_FAILURE, events := usage (argv.headD "") m,
                                fsm_called := false, fsm := none } := by
  obtain ⟨i, hi1, hi⟩ := mem_tail_index argv "-h" h
  have hlen : i < argv.length := (List.getElem?_eq_some.mp hi).1
  obtain ⟨r, hr, hu, hp⟩ := parse_arguments_eq argv
  have hb : before_element i getopt_init := ⟨hi1, fun hn => absurd rfl hn⟩
  by_cases he : r.err = none
  · by_cases hlt : r.st.optind < argv.length
    · rw [if_pos ⟨he, hlt⟩] at hp
      have ho := outcome_of_parse_error argv _ _ hp rfl
      exact ⟨_, main_of_usage_error lib argv _ _ ho (Or.inr ⟨_, rfl⟩)⟩
    · rw [if_neg (fun hc => hlt hc.2)] at hp
      rcases parse_loop_before argv i hi _ getopt_init args_zero r hb hr with h1 | h1 | h1
      · exact absurd he h1
      · have ho : arguments_outcome argv
            = some (some { type := p101_error_type.P101_ERROR_USER, code := error_code.ERR_USAGE,
                           message := some "delay must be a positive integer." },
                    { r.args with delay := 0 }) := by
          have hparse : p101_parse_unsigned_int (some "-h") = none := by decide
          simp [arguments_outcome, hp, he, p101_error_has_error, check_arguments, h1,
            convert_arguments, hparse, P101_ERROR_RAISE_USER]
        exact ⟨_, main_of_usage_error lib argv _ _ ho (Or.inr ⟨_, rfl⟩)⟩
      · omega
  · obtain ⟨m, _, _, h3⟩ := usage_error_of_loop_error lib argv r hr he
    exact ⟨m, h3⟩

/-! ### The "Unexpected argument" message -/

/-- The loop keeps `msg` equal to the first `MSG_LEN - 1` characters of the text so far. -/
theorem unexpected_loop_msg (rest : List String) :
    ∀ (s : msg_state) (X : List Char), s.msg = X.take (MSG_LEN - 1) → s.off = X.length →
      (unexpected_loop rest s).msg
        = (X ++ (rest.map (fun arg => ' ' :: arg.data)).flatten).take (MSG_LEN - 1) := by
  induction rest with
  | nil => intro s X h1 _; simp [unexpected_loop, h1]
  | cons arg rest ih =>
    intro s X h1 h2
    unfold unexpected_loop
    split
    · next hlt =>
      have hX : X.length ≤ MSG_LEN - 1 := by simp only [MSG_LEN] at hlt ⊢; omega
      have h3 := ih { msg := (snprintf_at MSG_LEN s.msg s.off (' ' :: arg.data)).1,
                      off := s.off + (snprintf_at MSG_LEN s.msg s.off (' ' :: arg.data)).2,
                      calls := s.calls ++ [s.off] } (X ++ ' ' :: arg.data)
        (by
          simp only [snprintf_at, hlt, if_true, h1, h2]
          rw [List.take_of_length_le hX, List.take_of_length_le (le_refl _),
            List.take_append_eq_append_take, List.take_of_length_le hX]
          rw [h2] at hlt
          rw [if_pos hlt, show MSG_LEN - X.length - 1 = MSG_LEN - 1 - X.length by omega])
        (by simp [snprintf_at, h2])
      simp only [List.map_cons, List.flatten_cons]
      rw [h3, List.append_assoc]
    · next hge =>
      rw [h1]
      have hX : MSG_LEN - 1 ≤ X.length := by simp only [MSG_LEN] at hge ⊢; omega
      rw [List.take_append_of_le_length hX]

/-- The builder is the loop started on the header. -/
theorem unexpected_message_eq (argv : List String) (optind : Nat) :
    unexpected_message argv optind = unexpected_loop (argv.drop optind)
      { msg := (unexpected_header argv optind).data.take (MSG_LEN - 1),
        off := (unexpected_header argv optind).length,
        calls := [0] } := by
  unfold unexpected_message
  simp only [snprintf_at, MSG_LEN, Nat.zero_add, Nat.sub_zero, List.take_zero, List.nil_append,
    Nat.lt_add_one, if_true, Nat.zero_lt_succ, String.length]
  rfl

/-- The built message is the first `MSG_LEN - 1` characters of the full text. -/
theorem unexpected_message_msg (argv : List String) (optind : Nat) :
    (unexpected_message argv optind).msg = (unexpected_text argv optind).take (MSG_LEN - 1) := by
  rw [unexpected_message_eq]
  exact unexpected_loop_msg _ _ _ rfl rfl

/-- The offsets of the calls made by the loop are the accumulated would-be lengths, all
below `MSG_LEN`; the loop stops early only once `off` has reached `MSG_LEN`. -/
theorem unexpected_loop_calls (rest : List String) :
    ∀ s : msg_state, ∃ k, k ≤ rest.length
      ∧ (unexpected_loop rest s).calls
          = s.calls ++ (List.range k).map (fun j => s.off + arg_weight (rest.take j))
      ∧ (unexpected_loop rest s).off = s.off + arg_weight (rest.take k)
      ∧ (k < rest.length → MSG_LEN ≤ (unexpected_loop rest s).off)
      ∧ (∀ j < k, s.off + arg_weight (rest.take j) < MSG_LEN) := by
  induction rest with
  | nil => intro s; exact ⟨0, by simp [unexpected_loop, arg_weight]⟩
  | cons arg rest ih =>
    intro s
    unfold unexpected_loop
    split
    · next hlt =>
      obtain ⟨k, hk, h1, h2, h3, h4⟩ := ih
        { msg := (snprintf_at MSG_LEN s.msg s.off (' ' :: arg.data)).1,
          off := s.off + (snprintf_at MSG_LEN s.msg s.off (' ' :: arg.data)).2,
          calls := s.calls ++ [s.off] }
      have hw : ∀ j, s.off + arg_weight ((arg :: rest).take (j + 1))
          = s.off + (snprintf_at MSG_LEN s.msg s.off (' ' :: arg.data)).2
              + arg_weight (rest.take j) := by
        intro j
        simp only [List.take_succ_cons, arg_weight, List.map_cons, List.sum_cons, snprintf_at,
          List.length_cons, String.length]
        omega
      refine ⟨k + 1, by simp only [List.length_cons]; omega, ?_, ?_, ?_, ?_⟩
      · simp only at h1
        rw [h1, List.range_succ_eq_map, List.map_cons, List.map_map, List.append_assoc]
        simp only [List.singleton_append, List.take_zero, arg_weight, List.map_nil, List.sum_nil,
          Nat.add_zero]
        congr 2
        apply List.map_congr_left
        intro j _
        simp only [Function.comp, Nat.succ_eq_add_one]
        exact (hw j).symm
      · simp only at h2; rw [h2, hw]
      · intro hk2
        exact h3 (by simp only [List.length_cons] at hk2; omega)
      · intro j hj
        cases j with
        | zero => simpa [arg_weight] using hlt
        | succ j => rw [hw]; exact h4 j (by omega)
    · next hge =>
      refine ⟨0, by simp, by simp, by simp [arg_weight], ?_, ?_⟩
      · intro _; omega
      · intro j hj; omega

/-! ### `run_fsm` -/

/-- The function `run_fsm` returns `EXIT_SUCCESS` whenever it returns. -/
theorem run_fsm_ret (lib : p101_fsm_lib) (err : Option p101_error) (args : arguments)
    (f : run_fsm_result) (h : run_fsm lib err args = some f) : f.ret = EXIT_SUCCESS := by
  unfold run_fsm at h
  simp only at h
  split at h
  · simp at h; rw [← h]
  · split at h
    · simp at h
    · simp at h; rw [← h]

/-- The function `run_fsm` when `p101_fsm_info_create` succeeds. -/
theorem run_fsm_created (lib : p101_fsm_lib) (args : arguments)
    (hc : lib.info_create_error = none) :
    run_fsm lib none args =
      match lib.fsm_run (registered_info args.fsm_verbose) args.delay transitions with
      | none => none
      | some r =>
        some { ret := EXIT_SUCCESS,
               err := if p101_error_has_error r.fsm_err then
                        P101_ERROR_RAISE_USER none (p101_error_get_message r.fsm_err)
                          error_code.ERR_FSM
                      else none,
               events := r.events, fsm := some r } := by
  unfold run_fsm
  simp [hc, p101_error_has_error]

/-- With accepted arguments `main` calls `run_fsm` and goes to `done`. -/
theorem main_of_outcome_ok (lib : p101_fsm_lib) (argv : List String) (args : arguments)
    (h : arguments_outcome argv = some (none, args)) :
    main lib argv =
      match run_fsm lib none args with
      | none => none
      | some f => some (main_done argv f.err f.ret f.events true f.fsm) := by
  rw [main_eq, h]

/-- The function `run_fsm` on the interpreter of the spec. -/
theorem spec_lib_run (k : Nat) (args : arguments) :
    run_fsm (spec_lib (k + 4)) none args
      = some { ret := EXIT_SUCCESS, err := none,
               events := (example_result args.fsm_verbose args.delay).events,
               fsm := some (example_result args.fsm_verbose args.delay) } := by
  rw [run_fsm_created _ _ rfl]
  simp only [spec_lib]
  rw [example_run k args.fsm_verbose args.delay]
  rfl

/-- With the interpreter of the spec `run_fsm` returns with no error. -/
theorem spec_lib_returns (fuel : Nat) (hfuel : 4 ≤ fuel) (args : arguments) :
    ∃ f, run_fsm (spec_lib fuel) none args = some f ∧ f.err = none := by
  obtain ⟨k, rfl⟩ := Nat.exists_eq_add_of_le hfuel
  rw [Nat.add_comm, spec_lib_run]
  exact ⟨_, rfl, rfl⟩

/-! ### Lines of the invalid-transition callback -/

/-- A line of the invalid-transition callback starts with `fsm c`. -/
theorem bad_line_data (x y : p101_fsm_state_t) (e : io_event)
    (he : e ∈ (bad_change_state_notifier_func x y).2) :
    ∃ s, e = io_event.stdout s ∧ s.data.take 5 = ['f', 's', 'm', ' ', 'c'] := by
  simp only [bad_change_state_notifier_func, fsm_name, List.mem_singleton] at he
  exact ⟨_, he, by simp [String.data_append]⟩

/-- No will-change line is a line of the invalid-transition callback. -/
theorem bad_not_mem_will (x y u v : p101_fsm_state_t) (e : io_event)
    (he : e ∈ (bad_change_state_notifier_func x y).2) :
    e ∉ will_change_state_notifier_func u v := by
  obtain ⟨s, rfl, hs⟩ := bad_line_data x y e he
  intro h
  simp only [will_change_state_notifier_func, fsm_name, List.mem_singleton,
    io_event.stdout.injEq] at h
  rw [h] at hs
  simp [String.data_append] at hs

/-- No did-change line is a line of the invalid-transition callback. -/
theorem bad_not_mem_did (x y u v w : p101_fsm_state_t) (e : io_event)
    (he : e ∈ (bad_change_state_notifier_func x y).2) :
    e ∉ did_change_state_notifier_func u v w := by
  obtain ⟨s, rfl, hs⟩ := bad_line_data x y e he
  intro h
  simp only [did_change_state_notifier_func, fsm_name, List.mem_singleton,
    io_event.stdout.injEq] at h
  rw [h] at hs
  simp [String.data_append] at hs

/-- No output of a handler is a line of the invalid-transition callback. -/
theorem bad_not_mem_handlers (x y : p101_fsm_state_t) (d : Nat) (e : io_event)
    (he : e ∈ (bad_change_state_notifier_func x y).2) :
    e ∉ (a d).events ∧ e ∉ (b d).events ∧ e ∉ (c d).events := by
  obtain ⟨s, rfl, hs⟩ := bad_line_data x y e he
  refine ⟨?_, ?_, ?_⟩ <;>
  · intro h
    simp only [a, b, c, List.mem_cons, List.mem_singleton, io_event.stdout.injEq, List.not_mem_nil,
      or_false, reduceCtorEq] at h
    rw [h] at hs
    simp at hs

/-! ## The claims -/

/-- C1: with the interpreter as the spec describes it and at least four iterations
of fuel, a run of the example chain ends, for every delay and either setting of
`fsm_verbose`: it was at INIT, A, B, C, EXIT in that order, once each; the
handlers wrote "a called", "b called", "c called" once each in that order
(without tracing the output is these lines and the three sleeps); no error is
recorded and `run_fsm` returns `EXIT_SUCCESS`; and `main` exits with success on
every command line whose arguments are accepted with these `args`. -/
theorem C1_example_chain_run (fuel : Nat) (hfuel : 4 ≤ fuel) (args : arguments) :
    ∃ f, run_fsm (spec_lib fuel) none args
          = some { ret := EXIT_SUCCESS, err := none, events := f.events, fsm := some f }
      ∧ f.from_state = C ∧ f.to_state = P101_FSM_EXIT ∧ f.fsm_err = none
      ∧ f.visited = [P101_FSM_INIT, A, B, C, P101_FSM_EXIT]
      ∧ f.events.filter (fun e => decide (e ∈ [io_event.stdout "a called\n",
            io_event.stdout "b called\n", io_event.stdout "c called\n"]))
          = [io_event.stdout "a called\n", io_event.stdout "b called\n",
             io_event.stdout "c called\n"]
      ∧ (args.fsm_verbose = false → f.events =
          [io_event.stdout "a called\n", io_event.sleep args.delay,
           io_event.stdout "b called\n", io_event.sleep args.delay,
           io_event.stdout "c called\n", io_event.sleep args.delay])
      ∧ (∀ argv, arguments_outcome argv = some (none, args) →
          main (spec_lib fuel) argv
            = some { status := EXIT_SUCCESS, events := f.events, fsm_called := true,
                     fsm := some f }) := by
  obtain ⟨k, rfl⟩ := Nat.exists_eq_add_of_le hfuel
  rw [Nat.add_comm]
  have hf := spec_lib_run k args
  refine ⟨example_result args.fsm_verbose args.delay, hf, rfl, rfl, rfl, rfl, ?_, ?_, ?_⟩
  · cases args.fsm_verbose
    · simp [example_result, registered_info, notify, notify_did, a, b, c, List.filter]
    · simp [example_result, registered_info, notify, notify_did, a, b, c,
        will_change_state_notifier_func, did_change_state_notifier_func, List.filter]
      decide
  · intro hv
    simp [example_result, hv, registered_info, notify, notify_did, a, b, c]
  · intro argv ho
    rw [main_of_outcome_ok _ argv args ho, hf]
    rfl

/-- Witness for C1: the command line `prog -d 0` with four iterations of fuel. -/
theorem C1_example_chain_run_witness :
    4 ≤ 4
    ∧ main (spec_lib 4) ["prog", "-d", "0"] = some
        { status := EXIT_SUCCESS,
          events := [io_event.stdout "a called\n", io_event.sleep 0,
                     io_event.stdout "b called\n", io_event.sleep 0,
                     io_event.stdout "c called\n", io_event.sleep 0],
          fsm_called := true,
          fsm := some (example_result false 0) } := by
  obtain ⟨f, h1, _, _, _, _, _, h7, h8⟩ := C1_example_chain_run 4 (le_refl 4)
    { delay_str := some "0", delay := 0, verbose := false, fsm_verbose := false }
  have h9 := h8 ["prog", "-d", "0"] (by decide)
  have h10 : f = example_result false 0 := by
    have := h1
    rw [spec_lib_run 0] at this
    simp only [Option.some.injEq, run_fsm_result.mk.injEq] at this
    exact this.2.2.2.symm
  subst h10
  exact ⟨le_refl 4, by rw [h9]; rfl⟩

/-- C2: `-d 0` passes `parse_arguments`, `check_arguments` and `convert_arguments`
with no error and `delay = 0`; `-d -1` and `-d abc` end with the usage error of
`convert_arguments`, `-d ""` with the usage error of `parse_arguments`; in the
three cases `main` prints the message and the usage text and exits with failure
without calling `run_fsm`, whatever the library does. -/
theorem C2_delay_validation (lib : p101_fsm_lib) :
    arguments_outcome ["prog", "-d", "0"]
      = some (none, { delay_str := some "0", delay := 0, verbose := false, fsm_verbose := false })
    ∧ arguments_outcome ["prog", "-d", "-1"]
        = some (some { type := p101_error_type.P101_ERROR_USER, code := error_code.ERR_USAGE,
                       message := some "delay must be a positive integer." },
                { delay_str := some "-1", delay := 0, verbose := false, fsm_verbose := false })
    ∧ main lib ["prog", "-d", "-1"]
        = some { status := EXIT_FAILURE,
                 events := usage "prog" (some "delay must be a positive integer."),
                 fsm_called := false, fsm := none }
    ∧ arguments_outcome ["prog", "-d", "abc"]
        = some (some { type := p101_error_type.P101_ERROR_USER, code := error_code.ERR_USAGE,
                       message := some "delay must be a positive integer." },
                { delay_str := some "abc", delay := 0, verbose := false, fsm_verbose := false })
    ∧ main lib ["prog", "-d", "abc"]
        = some { status := EXIT_FAILURE,
                 events := usage "prog" (some "delay must be a positive integer."),
                 fsm_called := false, fsm := none }
    ∧ arguments_outcome ["prog", "-d", ""]
        = some (some { type := p101_error_type.P101_ERROR_USER, code := error_code.ERR_USAGE,
                       message := some "Option '-d' requires a non-empty value." },
                { delay_str := some "", delay := 0, verbose := false, fsm_verbose := false })
    ∧ main lib ["prog", "-d", ""]
        = some { status := EXIT_FAILURE,
                 events := usage "prog" (some "Option '-d' requires a non-empty value."),
                 fsm_called := false, fsm := none } := by
  have h1 : arguments_outcome ["prog", "-d", "-1"]
        = some (some { type := p101_error_type.P101_ERROR_USER, code := error_code.ERR_USAGE,
                       message := some "delay must be a positive integer." },
                { delay_str := some "-1", delay := 0, verbose := false, fsm_verbose := false }) := by
    decide
  have h2 : arguments_outcome ["prog", "-d", "abc"]
        = some (some { type := p101_error_type.P101_ERROR_USER, code := error_code.ERR_USAGE,
                       message := some "delay must be a positive integer." },
                { delay_str := some "abc", delay := 0, verbose := false, fsm_verbose := false }) := by
    decide
  have h3 : arguments_outcome ["prog", "-d", ""]
        = some (some { type := p101_error_type.P101_ERROR_USER, code := error_code.ERR_USAGE,
                       message := some "Option '-d' requires a non-empty value." },
                { delay_str := some "", delay := 0, verbose := false, fsm_verbose := false }) := by
    decide
  exact ⟨by decide,
    h1, main_of_usage_error lib _ _ _ h1 (Or.inr ⟨_, rfl⟩),
    h2, main_of_usage_error lib _ _ _ h2 (Or.inr ⟨_, rfl⟩),
    h3, main_of_usage_error lib _ _ _ h3 (Or.inr ⟨_, rfl⟩)⟩

/-- C3: when `getopt` would return the option `d` twice on a command line, then
`parse_arguments` leaves a usage error (user error, `ERR_USAGE`) in `err`, and
`main` prints the usage text and exits with failure without calling `run_fsm`. -/
theorem C3_repeated_delay_option (lib : p101_fsm_lib) (argv : List String)
    (h : 2 ≤ (options_of argv).countP (fun o => o.1 == 'd')) :
    ∃ s m, parse_arguments none argv args_zero = some s
      ∧ s.err = some { type := p101_error_type.P101_ERROR_USER, code := error_code.ERR_USAGE,
                       message := m }
      ∧ main lib argv = some { status := EXIT_FAILURE, events := usage (argv.headD "") m,
                               fsm_called := false, fsm := none } := by
  obtain ⟨r, hr, _, _⟩ := parse_arguments_eq argv
  have he := scan_d2 argv (getopt_fuel argv) getopt_init args_zero _ r (options_of_eq argv) h hr
  obtain ⟨m, h1, h2, h3⟩ := usage_error_of_loop_error lib argv r hr he
  exact ⟨r, m, h1, h2, h3⟩

/-- Witness for C3: `prog -d 1 -v -d 2`. -/
theorem C3_repeated_delay_option_witness :
    2 ≤ (options_of ["prog", "-d", "1", "-v", "-d", "2"]).countP (fun o => o.1 == 'd')
    ∧ ∃ s m, parse_arguments none ["prog", "-d", "1", "-v", "-d", "2"] args_zero = some s
      ∧ s.err = some { type := p101_error_type.P101_ERROR_USER, code := error_code.ERR_USAGE,
                       message := m }
      ∧ main (spec_lib 4) ["prog", "-d", "1", "-v", "-d", "2"]
          = some { status := EXIT_FAILURE, events := usage ("prog") m,
                   fsm_called := false, fsm := none } :=
  ⟨by decide, C3_repeated_delay_option (spec_lib 4) ["prog", "-d", "1", "-v", "-d", "2"] (by decide)⟩

/-- C4: when the command line contains the option `-h` (as an option `getopt`
returns, alone or inside a cluster such as `-vh`, or as an element `-h` anywhere
after the program name), then `main` writes the five lines of the usage text
(`main.c` 211-215, with `argv[0]` as the program name) to stderr, after the error
message when there is one, writes nothing else, exits with failure and does not
call `run_fsm`. -/
theorem C4_help_option (lib : p101_fsm_lib) (argv : List String)
    (h : (∃ o ∈ options_of argv, o.1 = 'h') ∨ "-h" ∈ argv.tail) :
    ∃ m, main lib argv = some
      { status := EXIT_FAILURE,
        events := (match m with
                   | some msg => [io_event.stderr (msg ++ "\n\n")]
                   | none => [])
                  ++ [ io_event.stderr ("Usage: " ++ argv.headD "" ++ " [-h] [-v] -d <delay>\n"),
                    io_event.stderr "Options:\n",
                    io_event.stderr "  -h                Display this help message and exit\n",
                    io_event.stderr "  -v                Enable verbose tracing\n",
                    io_event.stderr "  -d <delay>        delay in seconds (required)\n" ],
        fsm_called := false, fsm := none } := by
  rcases h with h | h
  · obtain ⟨r, hr, _, _⟩ := parse_arguments_eq argv
    have he := scan_h argv (getopt_fuel argv) getopt_init args_zero _ r (options_of_eq argv) h hr
    obtain ⟨m, _, _, h3⟩ := usage_error_of_loop_error lib argv r hr he
    exact ⟨m, h3⟩
  · exact usage_error_of_h_element lib argv h

/-- Witness for C4: `prog -v -d 3 -Vh`; the error of `-h` has no message, so the
output is the usage text alone. -/
theorem C4_help_option_witness :
    ((∃ o ∈ options_of ["prog", "-v", "-d", "3", "-Vh"], o.1 = 'h')
      ∨ "-h" ∈ ["prog", "-v", "-d", "3", "-Vh"].tail)
    ∧ main (spec_lib 4) ["prog", "-v", "-d", "3", "-Vh"] = some
      { status := EXIT_FAILURE,
        events := [ io_event.stderr "Usage: prog [-h] [-v] -d <delay>\n",
                    io_event.stderr "Options:\n",
                    io_event.stderr "  -h                Display this help message and exit\n",
                    io_event.stderr "  -v                Enable verbose tracing\n",
                    io_event.stderr "  -d <delay>        delay in seconds (required)\n" ],
        fsm_called := false, fsm := none } := by
  have hh : (∃ o ∈ options_of ["prog", "-v", "-d", "3", "-Vh"], o.1 = 'h')
      ∨ "-h" ∈ ["prog", "-v", "-d", "3", "-Vh"].tail := by decide
  obtain ⟨m, hm⟩ := C4_help_option (spec_lib 4) ["prog", "-v", "-d", "3", "-Vh"] hh
  have hmsg : (main (spec_lib 4) ["prog", "-v", "-d", "3", "-Vh"]).map
      (fun r => r.events.length) = some 5 := by decide
  refine ⟨hh, ?_⟩
  rw [hm] at hmsg ⊢
  cases m with
  | none => rfl
  | some msg => simp at hmsg

/-- C5 (amended): when the options parse without error and a positional argument is
left, `parse_arguments` raises a usage error whose message is the first
`MSG_LEN - 1` characters of the header followed by a space and `argv[i]` for
each `optind <= i < argc` in order; when that text is shorter than `MSG_LEN` the
message is the whole of it; `main` prints it with the usage text and exits with
failure. -/
theorem C5_unexpected_arguments_message (lib : p101_fsm_lib) (argv : List String) (r : parse_state)
    (hr : parse_loop argv (getopt_fuel argv) { st := getopt_init, err := none, args := args_zero }
            = some r)
    (he : r.err = none) (hpos : r.st.optind < argv.length) :
    parse_arguments none argv args_zero = some
        { st := r.st,
          err := some { type := p101_error_type.P101_ERROR_USER, code := error_code.ERR_USAGE,
                        message := some (String.mk
                          ((unexpected_text argv r.st.optind).take (MSG_LEN - 1))) },
          args := r.args }
    ∧ ((unexpected_text argv r.st.optind).length < MSG_LEN →
        (unexpected_text argv r.st.optind).take (MSG_LEN - 1)
          = (unexpected_header argv r.st.optind).data
              ++ ((argv.drop r.st.optind).map (fun arg => ' ' :: arg.data)).flatten)
    ∧ main lib argv = some
        { status := EXIT_FAILURE,
          events := usage (argv.headD "")
            (some (String.mk ((unexpected_text argv r.st.optind).take (MSG_LEN - 1)))),
          fsm_called := false, fsm := none } := by
  have hp : parse_arguments none argv args_zero = some
        { st := r.st,
          err := some { type := p101_error_type.P101_ERROR_USER, code := error_code.ERR_USAGE,
                        message := some (String.mk
                          ((unexpected_text argv r.st.optind).take (MSG_LEN - 1))) },
          args := r.args } := by
    simp [parse_arguments, hr, he, hpos, p101_error_has_no_error, P101_ERROR_RAISE_USER,
      unexpected_message_msg]
  refine ⟨hp, ?_, ?_⟩
  · intro hlen
    rw [List.take_of_length_le (by omega)]
    rfl
  · have ho := outcome_of_parse_error argv _ _ hp rfl
    exact main_of_usage_error lib argv _ _ ho (Or.inr ⟨_, rfl⟩)

/-- Witness for C5 (amended): `prog -d 1 extra` gives "Unexpected argument: extra". -/
theorem C5_unexpected_arguments_message_witness :
    parse_loop ["prog", "-d", "1", "extra"] (getopt_fuel ["prog", "-d", "1", "extra"])
        { st := getopt_init, err := none, args := args_zero }
      = some { st := { optind := 3, nextchar := [], optarg := none, optopt := '?' }, err := none,
               args := { delay_str := some "1", delay := 0, verbose := false,
                         fsm_verbose := false } }
    ∧ main (spec_lib 4) ["prog", "-d", "1", "extra"] = some
        { status := EXIT_FAILURE,
          events := usage "prog" (some "Unexpected argument: extra"),
          fsm_called := false, fsm := none } :=
  ⟨by decide,
   (C5_unexpected_arguments_message (spec_lib 4) ["prog", "-d", "1", "extra"]
      { st := { optind := 3, nextchar := [], optarg := none, optopt := '?' }, err := none,
        args := { delay_str := some "1", delay := 0, verbose := false, fsm_verbose := false } }
      (by decide) rfl (by decide)).2.2⟩

set_option maxRecDepth 100000 in
/-- Counterexample to C5 as stated: on `prog -d 1 x...x` (300 times `x`) the options
parse without error and one positional argument is left, yet the message of the
usage error does not contain that argument. -/
theorem C5_overlong_argument_counterexample :
    parse_loop overlong_argv (getopt_fuel overlong_argv)
        { st := getopt_init, err := none, args := args_zero }
      = some { st := { optind := 3, nextchar := [], optarg := none, optopt := '?' }, err := none,
               args := { delay_str := some "1", delay := 0, verbose := false,
                         fsm_verbose := false } }
    ∧ ∃ s e m, parse_arguments none overlong_argv args_zero = some s ∧ s.err = some e
        ∧ e.message = some m
        ∧ ∃ arg ∈ overlong_argv.drop 3, ¬ (arg.data <:+: m.data) := by
  have hr : parse_loop overlong_argv (getopt_fuel overlong_argv)
        { st := getopt_init, err := none, args := args_zero }
      = some { st := { optind := 3, nextchar := [], optarg := none, optopt := '?' }, err := none,
               args := { delay_str := some "1", delay := 0, verbose := false,
                         fsm_verbose := false } } := by
    decide
  refine ⟨hr, ?_⟩
  have h3 : 3 < overlong_argv.length := by decide
  have hp : parse_arguments none overlong_argv args_zero = some
        { st := { optind := 3, nextchar := [], optarg := none, optopt := '?' },
          err := some { type := p101_error_type.P101_ERROR_USER, code := error_code.ERR_USAGE,
                        message := some (String.mk
                          ((unexpected_text overlong_argv 3).take (MSG_LEN - 1))) },
          args := { delay_str := some "1", delay := 0, verbose := false,
                    fsm_verbose := false } } := by
    unfold parse_arguments
    rw [hr]
    simp only [p101_error_has_no_error, Option.isNone_none, if_true, h3, P101_ERROR_RAISE_USER,
      unexpected_message_msg]
  have hmem : String.mk (List.replicate 300 'x') ∈ overlong_argv.drop 3 := by
    rw [show overlong_argv.drop 3 = [String.mk (List.replicate 300 'x')] from rfl]
    exact List.mem_singleton_self _
  refine ⟨_, _, _, hp, rfl, rfl, String.mk (List.replicate 300 'x'), hmem, ?_⟩
  intro hin
  have hlen := hin.length_le
  simp only [List.length_replicate, List.length_take, MSG_LEN] at hlen
  omega

/-- C6: when `getopt` would never return the option `d` on a command line, then
`main` prints the usage text and exits with failure without calling `run_fsm`;
and when `parse_arguments` leaves no error, the error is the one
`check_arguments` raises, with the message "The delay is required.". -/
theorem C6_missing_delay_option (lib : p101_fsm_lib) (argv : List String)
    (h : ∀ o ∈ options_of argv, o.1 ≠ 'd') :
    (∃ m, main lib argv = some { status := EXIT_FAILURE, events := usage (argv.headD "") m,
                                 fsm_called := false, fsm := none })
    ∧ ∃ s, parse_arguments none argv args_zero = some s
        ∧ (s.err = none →
            check_arguments s.err s.args
                = some { type := p101_error_type.P101_ERROR_USER, code := error_code.ERR_USAGE,
                         message := some "The delay is required." }
              ∧ main lib argv = some
                  { status := EXIT_FAILURE,
                    events := usage (argv.headD "") (some "The delay is required."),
                    fsm_called := false, fsm := none }) := by
  obtain ⟨r, hr, hu, hp⟩ := parse_arguments_eq argv
  have hd := scan_no_d argv (getopt_fuel argv) getopt_init args_zero _ r (options_of_eq argv) h hr
  have hd0 : r.args.delay_str = none := hd
  have key : ∀ s, parse_arguments none argv args_zero = some s → s.err = none →
      check_arguments s.err s.args
                = some { type := p101_error_type.P101_ERROR_USER, code := error_code.ERR_USAGE,
                         message := some "The delay is required." }
      ∧ main lib argv = some
                  { status := EXIT_FAILURE,
                    events := usage (argv.headD "") (some "The delay is required."),
                    fsm_called := false, fsm := none } := by
    intro s hs he
    have hsa : s.args.delay_str = none := by
      rw [hp] at hs
      simp only [Option.some.injEq] at hs
      subst hs
      split <;> exact hd0
    have hc : check_arguments s.err s.args
                = some { type := p101_error_type.P101_ERROR_USER, code := error_code.ERR_USAGE,
                         message := some "The delay is required." } := by
      simp [check_arguments, hsa, P101_ERROR_RAISE_USER]
    refine ⟨hc, ?_⟩
    have ho : arguments_outcome argv
        = some (some { type := p101_error_type.P101_ERROR_USER, code := error_code.ERR_USAGE,
                       message := some "The delay is required." }, s.args) := by
      rw [he] at hc
      simp [arguments_outcome, hs, he, p101_error_has_error, hc]
    exact main_of_usage_error lib argv _ s.args ho (Or.inr ⟨_, rfl⟩)
  refine ⟨?_, _, hp, ?_⟩
  · by_cases he : r.err = none ∧ r.st.optind < argv.length
    · rw [if_pos he] at hp
      have ho := outcome_of_parse_error argv _ _ hp rfl
      exact ⟨_, main_of_usage_error lib argv _ _ ho (Or.inr ⟨_, rfl⟩)⟩
    · rw [if_neg he] at hp
      cases hre : r.err with
      | none => exact ⟨_, (key r hp hre).2⟩
      | some e =>
        obtain ⟨m, _, _, h3⟩ := usage_error_of_loop_error lib argv r hr (by simp [hre])
        exact ⟨m, h3⟩
  · intro he
    exact key _ hp he

/-- Witness for C6: `prog -v -V`. -/
theorem C6_missing_delay_option_witness :
    (∀ o ∈ options_of ["prog", "-v", "-V"], o.1 ≠ 'd')
    ∧ main (spec_lib 4) ["prog", "-v", "-V"] = some
        { status := EXIT_FAILURE, events := usage "prog" (some "The delay is required."),
          fsm_called := false, fsm := none } := by
  have h : ∀ o ∈ options_of ["prog", "-v", "-V"], o.1 ≠ 'd' := by decide
  obtain ⟨_, s, hs, hk⟩ := C6_missing_delay_option (spec_lib 4) ["prog", "-v", "-V"] h
  have hs2 : parse_arguments none ["prog", "-v", "-V"] args_zero
      = some { st := { optind := 3, nextchar := [], optarg := none, optopt := '?' }, err := none,
               args := { delay_str := none, delay := 0, verbose := true, fsm_verbose := true } } := by
    decide
  rw [hs2] at hs
  simp only [Option.some.injEq] at hs
  subst hs
  exact ⟨h, (hk rfl).2⟩

/-- C7: for every library behaviour and command line, the arguments are processed
to an outcome; when `main` returns its status is `EXIT_SUCCESS` exactly when
parsing, checking and conversion raised no error and `run_fsm` left no error;
every error of parsing, checking and conversion is a usage error, for which
`main` writes to stderr the message (when the error has one) followed by a
blank line and then the five lines of the usage text (`main.c` 208-215), and
exits with failure; `run_fsm`
always returns `EXIT_SUCCESS`; an error the interpreter leaves in `fsm_err` is
raised into `err` with code `ERR_FSM` and `main` exits with failure after
writing the message to stderr, with no usage text; a run that leaves `fsm_err`
empty leaves `err` empty; an error of `p101_fsm_info_create` skips the run; and
with the interpreter of the spec `main` returns on every command line. -/
theorem C7_exit_status (lib : p101_fsm_lib) (argv : List String) :
    ∃ err args, arguments_outcome argv = some (err, args)
      ∧ (∀ r, main lib argv = some r →
          (r.status = EXIT_SUCCESS ↔
            err = none ∧ ∃ f, run_fsm lib none args = some f ∧ f.err = none))
      ∧ (∀ e, err = some e →
          e.type = p101_error_type.P101_ERROR_USER ∧ e.code = error_code.ERR_USAGE
          ∧ main lib argv = some
              { status := EXIT_FAILURE,
                events := (match e.message with
                           | some msg => [io_event.stderr (msg ++ "\n\n")]
                           | none => [])
                          ++ [ io_event.stderr ("Usage: " ++ argv.headD "" ++ " [-h] [-v] -d <delay>\n"),
                            io_event.stderr "Options:\n",
                            io_event.stderr "  -h                Display this help message and exit\n",
                            io_event.stderr "  -v                Enable verbose tracing\n",
                            io_event.stderr "  -d <delay>        delay in seconds (required)\n" ],
                fsm_called := false, fsm := none })
      ∧ (err = none → ∀ f, run_fsm lib none args = some f →
          f.ret = EXIT_SUCCESS
          ∧ ∃ r, main lib argv = some r ∧ r.fsm_called = true
            ∧ (f.err = none → r.status = EXIT_SUCCESS ∧ r.events = f.events)
            ∧ (f.err ≠ none → r.status = EXIT_FAILURE)
            ∧ (∀ fr e, lib.info_create_error = none → f.fsm = some fr → fr.fsm_err = some e →
                f.err = some { type := p101_error_type.P101_ERROR_USER,
                               code := error_code.ERR_FSM, message := e.message }
                ∧ r.status = EXIT_FAILURE
                ∧ r.events = fr.events ++ [io_event.stderr (fmt_s e.message ++ "\n")])
            ∧ (∀ fr, lib.info_create_error = none → f.fsm = some fr → fr.fsm_err = none →
                f.err = none)
            ∧ (∀ e, lib.info_create_error = some e →
                f.err = some e ∧ f.fsm = none ∧ f.events = []))
      ∧ (∀ fuel, 4 ≤ fuel → ∃ r, main (spec_lib fuel) argv = some r) := by
  obtain ⟨err, args, ho, hu⟩ := arguments_outcome_total argv
  refine ⟨err, args, ho, ?_, ?_, ?_, ?_⟩
  · intro r hr
    cases he : err with
    | some e =>
      subst he
      rw [main_of_usage_error lib argv e args ho hu] at hr
      simp only [Option.some.injEq] at hr
      subst hr
      simp [EXIT_FAILURE, EXIT_SUCCESS]
    | none =>
      subst he
      rw [main_of_outcome_ok lib argv args ho] at hr
      cases hf : run_fsm lib none args with
      | none => rw [hf] at hr; simp at hr
      | some f =>
        rw [hf] at hr
        simp only [Option.some.injEq] at hr
        subst hr
        have hret := run_fsm_ret lib none args f hf
        cases hfe : f.err with
        | none => simp [main_done, p101_error_has_error, hret, hfe]
        | some e =>
          simp only [main_done, p101_error_has_error, Option.isSome_some, if_true]
          split <;> simp [EXIT_FAILURE, EXIT_SUCCESS, hfe]
  · intro e he
    subst he
    have hm := main_of_usage_error lib argv e args ho hu
    rcases hu with hu | ⟨m, hm2⟩
    · simp at hu
    · simp only [Option.some.injEq] at hm2
      subst hm2
      exact ⟨rfl, rfl, hm⟩
  · intro he f hf
    subst he
    have hret := run_fsm_ret lib none args f hf
    refine ⟨hret, main_done argv f.err f.ret f.events true f.fsm, ?_, ?_, ?_, ?_, ?_, ?_, ?_⟩
    · rw [main_of_outcome_ok lib argv args ho, hf]
    · unfold main_done; repeat' split
      all_goals rfl
    · intro hfe
      simp [main_done, hfe, p101_error_has_error, hret]
    · intro hfe
      cases hfe2 : f.err with
      | none => exact absurd hfe2 hfe
      | some e =>
        simp only [main_done, p101_error_has_error, Option.isSome_some, if_true]
        split <;> rfl
    · intro fr e hc hfr hfre
      rw [run_fsm_created lib args hc] at hf
      cases hrun : lib.fsm_run (registered_info args.fsm_verbose) args.delay transitions with
      | none => rw [hrun] at hf; simp at hf
      | some fr2 =>
        rw [hrun] at hf
        simp only [Option.some.injEq] at hf
        subst hf
        simp only [Option.some.injEq] at hfr
        subst hfr
        simp [main_done, hfre, p101_error_has_error, P101_ERROR_RAISE_USER,
          p101_error_get_message, p101_error_is_error]
    · intro fr hc hfr hfre
      rw [run_fsm_created lib args hc] at hf
      cases hrun : lib.fsm_run (registered_info args.fsm_verbose) args.delay transitions with
      | none => rw [hrun] at hf; simp at hf
      | some fr2 =>
        rw [hrun] at hf
        simp only [Option.some.injEq] at hf
        subst hf
        simp only [Option.some.injEq] at hfr
        subst hfr
        simp [hfre, p101_error_has_error]
    · intro e hc
      unfold run_fsm at hf
      simp only [hc, p101_error_has_error, Option.isSome_some, if_true, Option.some.injEq] at hf
      subst hf
      exact ⟨rfl, rfl, rfl⟩
  · intro fuel hfuel
    cases he : err with
    | some e =>
      subst he
      exact ⟨_, main_of_usage_error _ argv e args ho hu⟩
    | none =>
      subst he
      obtain ⟨f, hf, _⟩ := spec_lib_returns fuel hfuel args
      rw [main_of_outcome_ok _ argv args ho, hf]
      exact ⟨_, rfl⟩

/-- Witness for C7: with a library whose interpreter reports an error, `prog -d 0`
exits with failure and writes only the message to stderr, while `prog -d abc`
exits with failure and writes the message and the usage text. -/
theorem C7_exit_status_witness :
    (∃ r, main failing_lib ["prog", "-d", "0"] = some r
      ∧ r.status = EXIT_FAILURE
      ∧ r.events = [io_event.stderr "Unknown state transition\n"])
    ∧ main failing_lib ["prog", "-d", "abc"] = some
        { status := EXIT_FAILURE,
          events := [ io_event.stderr "delay must be a positive integer.\n\n",
                      io_event.stderr "Usage: prog [-h] [-v] -d <delay>\n",
                      io_event.stderr "Options:\n",
                      io_event.stderr "  -h                Display this help message and exit\n",
                      io_event.stderr "  -v                Enable verbose tracing\n",
                      io_event.stderr "  -d <delay>        delay in seconds (required)\n" ],
          fsm_called := false, fsm := none } := by
  refine ⟨?_, ?_⟩
  · obtain ⟨err, args, ho, _, _, h3, _⟩ := C7_exit_status failing_lib ["prog", "-d", "0"]
    have ho2 : arguments_outcome ["prog", "-d", "0"]
        = some (none, { delay_str := some "0", delay := 0, verbose := false,
                        fsm_verbose := false }) := by decide
    rw [ho2] at ho
    simp only [Option.some.injEq, Prod.mk.injEq] at ho
    obtain ⟨he, ha⟩ := ho
    subst he ha
    obtain ⟨_, r, hm, _, _, _, h5, _, _⟩ := h3 rfl _ (run_fsm_created failing_lib _ rfl)
    obtain ⟨_, hs, hev⟩ := h5 _ _ rfl rfl rfl
    exact ⟨r, hm, hs, hev⟩
  · obtain ⟨err, args, ho, _, h2, _, _⟩ := C7_exit_status failing_lib ["prog", "-d", "abc"]
    have ho2 : arguments_outcome ["prog", "-d", "abc"]
        = some (some { type := p101_error_type.P101_ERROR_USER, code := error_code.ERR_USAGE,
                       message := some "delay must be a positive integer." },
                { delay_str := some "abc", delay := 0, verbose := false,
                  fsm_verbose := false }) := by decide
    rw [ho2] at ho
    simp only [Option.some.injEq, Prod.mk.injEq] at ho
    obtain ⟨he, _⟩ := ho
    subst he
    exact (h2 _ rfl).2.2

/-- C8: for every row of `transitions` with a handler and every value of the shared
delay, the state just entered and the state the handler returns are the
`(from, to)` pair of a row of the table; and with tracing on, a run of the
example chain (interpreter of the spec, at least four iterations of fuel)
writes for each of the three transitions one will-change line, the output of
the handler, and one did-change line with the same pair, and no line of the
invalid-transition callback. -/
theorem C8_no_undeclared_transition (fuel : Nat) (hfuel : 4 ≤ fuel) (args : arguments)
    (hv : args.fsm_verbose = true) :
    (∀ t ∈ transitions, ∀ h, t.perform = some h → ∀ delay,
        ∃ t2 ∈ transitions, t2.from_id = t.to_id ∧ t2.to_id = (h delay).next)
    ∧ ∃ r, run_fsm (spec_lib fuel) none args = some r
        ∧ r.err = none
        ∧ r.events =
            will_change_state_notifier_func P101_FSM_INIT A
              ++ (a args.delay).events ++ did_change_state_notifier_func P101_FSM_INIT A B
            ++ will_change_state_notifier_func A B
              ++ (b args.delay).events ++ did_change_state_notifier_func A B C
            ++ will_change_state_notifier_func B C
              ++ (c args.delay).events ++ did_change_state_notifier_func B C P101_FSM_EXIT
        ∧ ∀ x y, ∀ e ∈ (bad_change_state_notifier_func x y).2, e ∉ r.events := by
  obtain ⟨k, rfl⟩ := Nat.exists_eq_add_of_le hfuel
  refine ⟨?_, ?_⟩
  · intro t ht h hp delay
    simp only [transitions, List.mem_cons, List.mem_singleton, List.not_mem_nil, or_false] at ht
    rcases ht with rfl | rfl | rfl | rfl
    · simp only [Option.some.injEq] at hp; subst hp
      exact ⟨_, by simp [transitions]; right; left; rfl, rfl, rfl⟩
    · simp only [Option.some.injEq] at hp; subst hp
      exact ⟨_, by simp [transitions]; right; right; left; rfl, rfl, rfl⟩
    · simp only [Option.some.injEq] at hp; subst hp
      exact ⟨_, by simp [transitions]; right; right; right; rfl, rfl, rfl⟩
    · simp at hp
  · rw [Nat.add_comm, spec_lib_run k args, hv]
    refine ⟨_, rfl, rfl, ?_, ?_⟩
    · simp [example_result, registered_info, notify, notify_did]
    · intro x y e he hin
      have h1 := bad_not_mem_handlers x y args.delay e he
      simp only [example_result, registered_info, if_true, notify, notify_did,
        List.mem_append] at hin
      rcases hin with ((((((((h | h) | h) | h) | h) | h) | h) | h) | h)
      · exact bad_not_mem_will x y _ _ e he h
      · exact h1.1 h
      · exact bad_not_mem_did x y _ _ _ e he h
      · exact bad_not_mem_will x y _ _ e he h
      · exact h1.2.1 h
      · exact bad_not_mem_did x y _ _ _ e he h
      · exact bad_not_mem_will x y _ _ e he h
      · exact h1.2.2 h
      · exact bad_not_mem_did x y _ _ _ e he h

/-- Witness for C8: delay 0 with tracing on and four iterations of fuel. -/
theorem C8_no_undeclared_transition_witness :
    4 ≤ 4
    ∧ ∃ r, run_fsm (spec_lib 4) none
            { delay_str := some "0", delay := 0, verbose := false, fsm_verbose := true } = some r
        ∧ r.events =
            [io_event.stdout "fsm will change from 0 to 2\n",
             io_event.stdout "a called\n", io_event.sleep 0,
             io_event.stdout "fsm did change from 0 to 2\n",
             io_event.stdout "fsm will change from 2 to 3\n",
             io_event.stdout "b called\n", io_event.sleep 0,
             io_event.stdout "fsm did change from 2 to 3\n",
             io_event.stdout "fsm will change from 3 to 4\n",
             io_event.stdout "c called\n", io_event.sleep 0,
             io_event.stdout "fsm did change from 3 to 4\n"] := by
  obtain ⟨_, r, h1, _, h3, _⟩ := C8_no_undeclared_transition 4 (le_refl 4)
    { delay_str := some "0", delay := 0, verbose := false, fsm_verbose := true } rfl
  exact ⟨le_refl 4, r, h1, by rw [h3]; decide⟩

/-- C9: in the table `transitions` a row has no handler exactly when its to-state is
`P101_FSM_EXIT`, and no row has `P101_FSM_EXIT` as its from-state; so no lookup
from EXIT finds a handler, and no lookup into EXIT finds one. -/
theorem C9_transitions_table_well_formed :
    (∀ t ∈ transitions,
        (t.perform = none ↔ t.to_id = P101_FSM_EXIT) ∧ t.from_id ≠ P101_FSM_EXIT)
    ∧ (∀ to_id, fsm_transition P101_FSM_EXIT to_id transitions = none)
    ∧ (∀ from_id, fsm_transition from_id P101_FSM_EXIT transitions = none) := by
  refine ⟨?_, ?_, ?_⟩
  · intro t ht
    simp only [transitions, List.mem_cons, List.mem_singleton, List.not_mem_nil, or_false] at ht
    rcases ht with h | h | h | h <;> subst h <;>
      simp [P101_FSM_EXIT, P101_FSM_INIT, A, B, C, P101_FSM_USER_START]
  · intro to_id
    simp [fsm_transition, transitions, List.find?, P101_FSM_EXIT, P101_FSM_INIT, A, B, C,
      P101_FSM_USER_START]
  · intro from_id
    by_cases h : (4 : Int) = from_id <;>
    simp [fsm_transition, transitions, List.find?, P101_FSM_EXIT, P101_FSM_INIT, A, B, C,
      P101_FSM_USER_START, h]

/-- C10: the calls of `snprintf` in the "Unexpected argument" builder are made at
offset 0 and then at the accumulated would-be lengths of the header and the
first `j` arguments, for `j` below some `k`; every such offset is below `MSG_LEN`,
so the size argument `MSG_LEN - off` is positive; `off` ends as the would-be
length after `k` arguments; and if the loop stopped before the last argument
then `off` has reached `MSG_LEN`. -/
theorem C10_message_offsets_in_bounds (argv : List String) (optind : Nat) :
    ∃ k, k ≤ (argv.drop optind).length
      ∧ (unexpected_message argv optind).calls
          = 0 :: (List.range k).map
              (fun j => (unexpected_header argv optind).length
                          + arg_weight ((argv.drop optind).take j))
      ∧ (∀ o ∈ (unexpected_message argv optind).calls, o < MSG_LEN ∧ 0 < MSG_LEN - o)
      ∧ (unexpected_message argv optind).off
          = (unexpected_header argv optind).length + arg_weight ((argv.drop optind).take k)
      ∧ (k < (argv.drop optind).length → MSG_LEN ≤ (unexpected_message argv optind).off) := by
  obtain ⟨k, hk, h1, h2, h3, h4⟩ := unexpected_loop_calls (argv.drop optind)
    { msg := (unexpected_header argv optind).data.take (MSG_LEN - 1),
      off := (unexpected_header argv optind).length,
      calls := [0] }
  rw [unexpected_message_eq]
  simp only [List.singleton_append] at h1 h2 h4
  refine ⟨k, hk, h1, ?_, h2, h3⟩
  intro o ho
  rw [h1] at ho
  have : o < MSG_LEN := by
    simp only [List.mem_cons, List.mem_map, List.mem_range] at ho
    rcases ho with rfl | ⟨j, hj, rfl⟩
    · simp [MSG_LEN]
    · exact h4 j hj
  exact ⟨this, by omega⟩

end TemplateC
